import Mathlib

/-!
# Verification of the hardhat-evm-state-setter storage core

A shallow embedding of the storage-slot resolution and value-encoding core of
the `hardhat-evm-state-setter` repository (`src/storage-layout.ts`,
`src/path-utils.ts`, `src/slot-utils.ts`, `src/index.ts`), together with
theorems settling the specification claims about it.

Conventions of the embedding:
* JavaScript strings are modelled as lists of character codes (`JSString`);
  the inputs exercised by the claims are ASCII, where a character code is
  exactly one UTF-8 byte.
* JavaScript `BigInt` values are modelled as `Int`/`Nat` (arbitrary
  precision, like `BigInt` itself).  Machine-word arithmetic performed by
  the EVM is made explicit with `% 2^256` where it occurs in the claims.
* Code that throws is modelled with `Except String`.
* The storage backend (`eth_getStorageAt` / `hardhat_setStorageAt`) is
  modelled by a read function `Nat → Nat` together with an explicit trace of
  the calls issued (`BackendCall`).
-/

namespace StateSetter

/-- A JavaScript string, as its list of character codes. -/
abbrev JSString := List Nat

/-- Character codes of a Lean string literal (ASCII in all our uses). -/
def jstr (s : String) : JSString := s.toList.map Char.toNat

/-- Is `c` the code of a decimal digit? -/
def isDigitCode (c : Nat) : Bool := 48 ≤ c && c ≤ 57

/-- JS regex `^\d+$`: non-empty and all decimal digits. -/
def isDigits (s : JSString) : Bool := !s.isEmpty && s.all isDigitCode

/-- JS `s.startsWith("0x")`. -/
def hasHex0x (s : JSString) : Bool :=
  match s with
  | a :: b :: _ => a == 48 && b == 120
  | _ => false

/-- Value of a decimal digit string (Horner, left to right, as `BigInt`
and `parseInt` read exact decimal strings). -/
def decVal (s : JSString) : Nat := s.foldl (fun a c => 10 * a + (c - 48)) 0

/-- Value of one hexadecimal digit character (0-9, a-f, A-F; 0 otherwise). -/
def hexDigitVal (c : Nat) : Nat :=
  if 48 ≤ c ∧ c ≤ 57 then c - 48
  else if 97 ≤ c ∧ c ≤ 102 then c - 87
  else if 65 ≤ c ∧ c ≤ 70 then c - 55
  else 0

/-- Is `c` a hexadecimal digit character? -/
def isHexDigitCode (c : Nat) : Bool :=
  (48 ≤ c && c ≤ 57) || (97 ≤ c && c ≤ 102) || (65 ≤ c && c ≤ 70)

/-- JS regex `^[0-9a-fA-F]+$`. -/
def isHexDigits (s : JSString) : Bool := !s.isEmpty && s.all isHexDigitCode

/-- Value of a hexadecimal digit string (as `ethers.getBigInt("0x…")` reads it). -/
def hexVal (s : JSString) : Nat := s.foldl (fun a c => 16 * a + hexDigitVal c) 0

/-- Little-endian base-`base` digits of `n`, with an explicit fuel bound so
that the definition is structurally recursive (kernel-reducible); any
`fuel ≥ n` yields all digits. -/
def natDigitsAux (base : Nat) : Nat → Nat → List Nat
  | 0, _ => []
  | fuel + 1, n => if n = 0 then [] else n % base :: natDigitsAux base fuel (n / base)

/-- Decimal digit characters of `n`, most significant first (JS
`n.toString()` / `BigInt.prototype.toString`). -/
def decToStr (n : Nat) : JSString :=
  if n = 0 then [48] else ((natDigitsAux 10 n n).reverse).map (fun d => d + 48)

/-- Lower-case hexadecimal digit characters of `n`, most significant first
(JS `n.toString(16)`). -/
def hexToStr (n : Nat) : JSString :=
  if n = 0 then [48]
  else ((natDigitsAux 16 n n).reverse).map (fun d => if d < 10 then d + 48 else d + 87)

/-- The characters `0x` followed by the hex digits of `n`. -/
def hex0xStr (n : Nat) : JSString := 48 :: 120 :: hexToStr n

/-- JS `String.prototype.padStart(n, c)`. -/
def padStartChars (n : Nat) (c : Nat) (s : JSString) : JSString :=
  List.replicate (n - s.length) c ++ s

/-- Floor of the base-2 logarithm, with an explicit fuel bound so that the
definition is structurally recursive (kernel-reducible); any `fuel ≥ n`
computes it. -/
def natLog2Aux : Nat → Nat → Nat
  | 0, _ => 0
  | fuel + 1, n => if n ≤ 1 then 0 else natLog2Aux fuel (n / 2) + 1

/-- Floor of the base-2 logarithm (0 at 0). -/
def natLog2 (n : Nat) : Nat := natLog2Aux n n

/-- Round an integer to the nearest IEEE binary64 double (round half to
even), which is what a JS `number` holds: exact below 2^53, else the
nearest multiple of an ulp `2^(exponent - 52)`; `none` is `Infinity`,
reached from `2^1024` upward after rounding. -/
def floatRound (n : Nat) : Option Nat :=
  if n < 2 ^ 53 then some n
  else
    let ulp := 2 ^ (natLog2 n - 52)
    let q := n / ulp
    let r := n % ulp
    let rounded :=
      if 2 * r < ulp then q
      else if ulp < 2 * r then q + 1
      else if q % 2 = 0 then q else q + 1
    if rounded * ulp < 2 ^ 1024 then some (rounded * ulp) else none

/-- JS `parseInt(s, 10)`: the leading digit run, converted to a double —
correctly rounded, as V8 computes it (ECMA's optional truncation after 20
significant digits cannot move any value exercised here across a rounding
boundary).  `none` stands for `NaN` and for `Infinity`: both make the
`BigInt` conversion that follows every use of this function throw. -/
def parseIntJS (s : JSString) : Option Nat :=
  let d := s.takeWhile isDigitCode
  if d.isEmpty then none else floatRound (decVal d)

/-- JS `parseInt(s, 10)` coerced like the source does when it immediately
stores the result (a `NaN` is modelled as 0; no claim exercises it, and
the layout-size literals this reads are far below 2^53, so the double
rounding of `parseInt` is dropped here). -/
def parseIntD (s : JSString) : Nat := decVal (s.takeWhile isDigitCode)

/-- JS `BigInt(s)` on a string: decimal or `0x` hex; `none` models a thrown
`SyntaxError`.  (`BigInt("")` is `0`; binary/octal literals and signed
decimals are outside every input the claims exercise.) -/
def jsBigIntOfStr (s : JSString) : Option Nat :=
  if s.isEmpty then some 0
  else if isDigits s then some (decVal s)
  else if hasHex0x s ∧ isHexDigits (s.drop 2) then some (hexVal (s.drop 2))
  else none

/-- `ethers.getBigInt(s)`: like `BigInt` but `""` throws as well. -/
def getBigIntJS (s : JSString) : Option Nat :=
  if isDigits s then some (decVal s)
  else if hasHex0x s ∧ isHexDigits (s.drop 2) then some (hexVal (s.drop 2))
  else none

/-- JS `s.lastIndexOf(c)` (as `none` instead of `-1`). -/
def lastIdxOf (s : JSString) (c : Nat) : Option Nat :=
  (List.range s.length).foldl (fun acc i => if s.getD i 0 = c then some i else acc) none

/-- JS `s.substring(a, b)` for `a ≤ b`. -/
def subStr (s : JSString) (a b : Nat) : JSString := (s.drop a).take (b - a)

/-- Index of the first occurrence of `sub` in `s`. -/
def findSubIdx (s sub : JSString) : Option Nat :=
  (List.range (s.length + 1)).find? (fun i => sub.isPrefixOf (s.drop i))

/-- JS `s.includes(sub)`. -/
def includesSub (s sub : JSString) : Bool := (findSubIdx s sub).isSome

/-- JS `s.split(delim)` for a non-empty delimiter, structural on fuel
(`s.length + 1` is always enough fuel). -/
def splitOnSubAux (delim : JSString) : Nat → JSString → JSString → List JSString
  | 0, acc, rest => [acc.reverse ++ rest]
  | fuel + 1, acc, rest =>
    if delim.isPrefixOf rest ∧ !delim.isEmpty then
      acc.reverse :: splitOnSubAux delim fuel [] (rest.drop delim.length)
    else
      match rest with
      | [] => [acc.reverse]
      | c :: cs => splitOnSubAux delim fuel (c :: acc) cs

/-- JS `s.split(delim)`. -/
def splitOnSub (s delim : JSString) : List JSString :=
  splitOnSubAux delim (s.length + 1) [] s

/-- JS `s.trim()` (the inputs only ever carry plain spaces). -/
def trimStr (s : JSString) : JSString :=
  ((s.dropWhile (· = 32)).reverse.dropWhile (· = 32)).reverse

/-- Pairs of hex characters to bytes, as `ethers.concat`/`ethers.getBytes`
read a `0x…` string; `none` models the throw on invalid or odd-length hex. -/
def hexCharsToBytes : JSString → Option (List Nat)
  | [] => some []
  | a :: b :: rest =>
    if isHexDigitCode a ∧ isHexDigitCode b then
      (hexCharsToBytes rest).map (fun bs => (16 * hexDigitVal a + hexDigitVal b) :: bs)
    else none
  | [_] => none

/-- Big-endian byte-list value: `[b₀, …, bₙ]` reads as `b₀·256ⁿ + …`. -/
def bytesToNatBE (bs : List Nat) : Nat := bs.foldl (fun a b => 256 * a + b) 0

/-- The 32 big-endian bytes of `v % 2^256` (`leftPad32`). -/
def natToBytes32 (v : Nat) : List Nat :=
  (List.range 32).map (fun i => (v >>> (8 * (31 - i))) % 256)

/-- Byte `i` of a word, counted from the low-order end. -/
def byteAt (x i : Nat) : Nat := (x >>> (8 * i)) % 256

end StateSetter

namespace Keccak

/-- The FIPS 202 rc LFSR over one byte (polynomial x^8+x^6+x^5+x^4+1,
i.e. feedback mask 0x71): state after `t` steps from 1. -/
def rcLfsr : Nat → Nat
  | 0 => 1
  | t + 1 =>
    let R2 := rcLfsr t * 2
    if 256 ≤ R2 then (R2 ^^^ 0x71) % 256 else R2

/-- Bit `rc(t)` of FIPS 202. -/
def rcBit (t : Nat) : Nat := rcLfsr t &&& 1

/-- Round constant of round `r`: bits `rc(7r + j)` at positions `2^j - 1`. -/
def roundConstant (r : Nat) : Nat :=
  (List.range 7).foldl (fun acc j => acc ||| (rcBit (7 * r + j) <<< (2 ^ j - 1))) 0

/-- The 24 Keccak-f[1600] round constants. -/
def roundConstants : List Nat := (List.range 24).map roundConstant

/-- The rho offset walk: starting from lane (1,0), step `t` assigns offset
`(t+1)(t+2)/2 mod 64` and moves to `(y, (2x+3y) mod 5)`; emitted as
`(x + 5*y, offset)` pairs (`k` is `t+1`). -/
def rhoWalk : Nat → Nat → Nat → Nat → List (Nat × Nat)
  | 0, _, _, _ => []
  | steps + 1, x, y, k =>
    (x + 5 * y, (k * (k + 1) / 2) % 64) :: rhoWalk steps y ((2 * x + 3 * y) % 5) (k + 1)

/-- Rho rotation offsets, lane order `x + 5*y` (lane 0 rotates by 0). -/
def rotOffsets : List Nat :=
  (List.range 25).map (fun i => ((rhoWalk 24 1 0 1).lookup i).getD 0)

/-- Left-rotate a 64-bit lane by `n < 64` bits. -/
def rol64 (x n : Nat) : Nat :=
  ((x <<< n) ||| (x >>> (64 - n))) % (2 ^ 64)

/-- One Keccak-f round (θ, ρ, π, χ, ι) on 25 lanes indexed `x + 5*y`. -/
def keccakRound (A : List Nat) (rc : Nat) : List Nat :=
  let C := (List.range 5).map (fun x =>
    (A.getD x 0) ^^^ (A.getD (x + 5) 0) ^^^ (A.getD (x + 10) 0) ^^^
    (A.getD (x + 15) 0) ^^^ (A.getD (x + 20) 0))
  let D := (List.range 5).map (fun x =>
    (C.getD ((x + 4) % 5) 0) ^^^ rol64 (C.getD ((x + 1) % 5) 0) 1)
  let A1 := (List.range 25).map (fun i => (A.getD i 0) ^^^ (D.getD (i % 5) 0))
  -- ρ and π: lane (x',y') of B is lane (x,y) = ((x'+3y') mod 5, x') of A1, rotated
  let B := (List.range 25).map (fun i =>
    let xp := i % 5
    let yp := i / 5
    let src := (xp + 3 * yp) % 5 + 5 * xp
    rol64 (A1.getD src 0) (rotOffsets.getD src 0))
  let A2 := (List.range 25).map (fun i =>
    let x := i % 5
    let y := i / 5
    (B.getD i 0) ^^^
      (((B.getD ((x + 1) % 5 + 5 * y) 0) ^^^ (2 ^ 64 - 1)) &&&
        (B.getD ((x + 2) % 5 + 5 * y) 0)))
  (A2.headI ^^^ rc) :: A2.tail

/-- The full 24-round Keccak-f[1600] permutation. -/
def keccakF (A : List Nat) : List Nat :=
  roundConstants.foldl keccakRound A

/-- A little-endian 64-bit lane from (up to) 8 bytes. -/
def bytesToLane (bs : List Nat) : Nat :=
  bs.foldr (fun b acc => acc * 256 + b) 0

/-- XOR a (≤136-byte) block into the first 17 lanes of the state. -/
def xorBlock (S block : List Nat) : List Nat :=
  (List.range 25).map (fun j =>
    (S.getD j 0) ^^^ (if j < 17 then bytesToLane ((block.drop (8 * j)).take 8) else 0))

/-- Sponge absorption, structural on a fuel bound (one unit per block is
enough; we pass the byte length, which is larger). -/
def absorbAux : Nat → List Nat → List Nat → List Nat
  | 0, S, _ => S
  | fuel + 1, S, bytes =>
    if bytes.isEmpty then S
    else absorbAux fuel (keccakF (xorBlock S (bytes.take 136))) (bytes.drop 136)

/-- Sponge absorption of a padded message (length a positive multiple of 136). -/
def absorb (S : List Nat) (bytes : List Nat) : List Nat :=
  absorbAux bytes.length S bytes

/-- Original Keccak multi-rate padding (domain byte 0x01), rate 136. -/
def padKeccak (msg : List Nat) : List Nat :=
  let padLen := 136 - msg.length % 136
  if padLen = 1 then msg ++ [0x81]
  else msg ++ 0x01 :: (List.replicate (padLen - 2) 0 ++ [0x80])

/-- The 8 little-endian bytes of a 64-bit lane. -/
def laneToBytes (v : Nat) : List Nat :=
  (List.range 8).map (fun k => (v >>> (8 * k)) % 256)

/-- Keccak-256 digest (32 bytes) of a byte list — the Ethereum `keccak256`. -/
def keccak256Bytes (msg : List Nat) : List Nat :=
  let S := absorb (List.replicate 25 0) (padKeccak msg)
  (((List.range 4).map (fun j => laneToBytes (S.getD j 0))).flatten)

/-- Keccak-256 digest of a byte list, as a 256-bit natural number. -/
def keccak256Nat (msg : List Nat) : Nat :=
  StateSetter.bytesToNatBE (keccak256Bytes msg)

end Keccak

namespace StateSetter

/-!
## Data model (`src/types.ts` and the solc `storageLayout` JSON)

Strings keep the exact JS string values the code manipulates (slots are
decimal strings in a layout, `0x…` strings once keccak-derived, bare hex
from `calculateMemberSlot`, …), because several functions branch on the
string shape.
-/

/-- A member entry of a struct type in the layout JSON
(`{label, slot, offset, type}`; `slot` is a decimal string). -/
structure LayoutMember where
  label : JSString
  slot : JSString
  offset : Nat
  type : JSString
deriving DecidableEq, Repr

/-- A type entry of the layout JSON
(`{label, numberOfBytes, members?}`; fields the code never reads are omitted). -/
structure LayoutType where
  label : JSString
  numberOfBytes : JSString
  members : Option (List LayoutMember)
deriving DecidableEq, Repr

/-- A `storage` entry of the layout JSON (`{label, slot, offset, type}`). -/
structure StorageVar where
  label : JSString
  slot : JSString
  offset : Nat
  type : JSString
deriving DecidableEq, Repr

/-- A parsed `storageLayout` object (`StorageLayoutInfo` in `types.ts`). -/
structure StorageLayoutInfo where
  storage : List StorageVar
  types : List (JSString × LayoutType)
deriving DecidableEq, Repr

/-- `VarLocation` of `types.ts`.  `name` is `none` where the JS object has
no `name` property (raw layout members used as children never match a field
name, exactly as `undefined === fieldName` never holds).  `offset` is
`none` where the JS property is `undefined`.  `parent` carries only the
`types` map, the single part the code reads.  `size` is 0 where the JS
property would be `undefined` (never read by any claim input). -/
structure VarLocation where
  name : Option JSString
  slot : JSString
  offset : Option Nat
  size : Nat
  type : JSString
  children : Option (List VarLocation)
  structInfo : Option StorageLayoutInfo
  parent : Option (List (JSString × LayoutType))

/-- `StorageLocation` of `types.ts`: the resolver result. -/
structure StorageLocation where
  slot : JSString
  offset : Option Nat
  size : Nat
  type : JSString
  children : Option (List VarLocation)

/-- Type-map lookup, `types[id]`. -/
def lookupType (types : List (JSString × LayoutType)) (id : JSString) : Option LayoutType :=
  (types.find? (fun p => p.1 = id)).map Prod.snd

/-!
## `src/storage-layout.ts`
-/

/-- `calculateMemberSlot(parentSlot, offset)`: `ethers.getBigInt(parentSlot)`
plus `Math.floor(offset / 32)`, rendered as bare hex (no `0x` added).  Note
the source passes the member's intra-slot byte offset here, not its
relative slot. -/
def calculateMemberSlot (parentSlot : JSString) (offset : Nat) : Except String JSString :=
  match getBigIntJS parentSlot with
  | none => Except.error "invalid BigNumberish value"
  | some v => Except.ok (hexToStr (v + offset / 32))

/-- The key-processing block shared verbatim by both branches of
`calculateMappingSlot`: `0x…` keys are hex-padded via
`key.slice(2).padStart(64, '0')`; decimal keys render as
`BigInt(key).toString(16).padStart(64, '0')` — with NO reduction, so a key
of 2^256 or more keeps more than 64 hex characters (an odd count throws in
`ethers.concat`, an even count hashes more than 32 key bytes); anything
else is `keccak256(toUtf8Bytes(key))`.  `none` models a throw caught by
the surrounding try/catch. -/
def mappingKeyBytes (key : JSString) : Option (List Nat) :=
  if hasHex0x key then
    hexCharsToBytes (padStartChars 64 48 (key.drop 2))
  else if isDigits key then
    hexCharsToBytes (padStartChars 64 48 (hexToStr (decVal key)))
  else
    some (Keccak.keccak256Bytes key)

/-- `ethers.keccak256` output: `0x` plus 64 lower-case hex characters. -/
def keccakHexStr (bytes : List Nat) : JSString :=
  48 :: 120 :: padStartChars 64 48 (hexToStr (Keccak.keccak256Nat bytes))

/-- The small-slot fast path of `calculateMappingSlot` (taken when the slot
string is decimal digits with `parseInt` value below 1000): the slot is
read as DECIMAL; small decimal keys get a dedicated sub-branch, other keys
go through the shared key-processing block. -/
def calculateMappingSlotFast (slot key : JSString) : Except String JSString :=
  let slotBytes := natToBytes32 (decVal slot)
  if isDigits key ∧ decVal key < 1000 then
    Except.ok (keccakHexStr (natToBytes32 (decVal key) ++ slotBytes))
  else
    match mappingKeyBytes key with
    | none => Except.error "Error calculating mapping slot"
    | some keyBytes => Except.ok (keccakHexStr (keyBytes ++ slotBytes))

/-- The general path of `calculateMappingSlot`: the slot string gets `0x`
prepended when missing, so its characters are read as HEXADECIMAL
(`ethers.getBigInt`); invalid hex throws into the surrounding catch. -/
def calculateMappingSlotGeneral (slot key : JSString) : Except String JSString :=
  let hexPart := if hasHex0x slot then slot.drop 2 else slot
  if isHexDigits hexPart then
    let slotBytes := natToBytes32 (hexVal hexPart)
    match mappingKeyBytes key with
    | none => Except.error "Error calculating mapping slot"
    | some keyBytes => Except.ok (keccakHexStr (keyBytes ++ slotBytes))
  else Except.error "Error calculating mapping slot"

/-- `calculateMappingSlot(slot, key)` from `storage-layout.ts`: dispatches
on `/^\d+$/.test(slot) && parseInt(slot, 10) < 1000` between the two paths
above.  (Slot values are below 2^256 in every reachable input; the 32-byte
padding of larger values is not modelled.) -/
def calculateMappingSlot (slot key : JSString) : Except String JSString :=
  if isDigits slot ∧ decVal slot < 1000 then calculateMappingSlotFast slot key
  else calculateMappingSlotGeneral slot key

/-- `calculateArraySlot(baseSlot, index)`: prepends `0x` when missing, so a
decimal slot string is read as hexadecimal; adds the index with no modular
reduction; result is `0x` plus bare hex. -/
def calculateArraySlot (baseSlot : JSString) (index : Nat) : Except String JSString :=
  let hexPart := if hasHex0x baseSlot then baseSlot.drop 2 else baseSlot
  if isHexDigits hexPart then
    Except.ok (hex0xStr (hexVal hexPart + index))
  else Except.error "invalid BigNumberish value"

/-- `calculateDynamicArraySlot(baseSlot, index)`: `BigInt(baseSlot)` (decimal
or `0x`), then `keccak256` of its 32-byte padding plus the index, with no
modular reduction; the result is a decimal string (`.toString()`).  The
`length` special case returns the base slot itself. -/
def calculateDynamicArraySlot (baseSlot : JSString) (index : JSString) : Except String JSString :=
  if index = jstr "length" ∨ index = jstr ".length" then
    Except.ok baseSlot
  else
    match parseIntJS index with
    | none => Except.error "Cannot convert NaN to a BigInt"
    | some i =>
      match jsBigIntOfStr baseSlot with
      | none => Except.error "Cannot convert to a BigInt"
      | some b =>
        Except.ok (decToStr (Keccak.keccak256Nat (natToBytes32 b) + i))

/-- `findVariableLocation(storageLayout, varName)`: `Except` for the throws,
`Option` for the `null` return when the variable is absent.  Struct
children get `slot = calculateMemberSlot(base, member.offset)` and
`offset = member.offset % 32` — the member's `slot` field is not consulted. -/
def findVariableLocation (layout : StorageLayoutInfo) (varName : JSString) :
    Except String (Option VarLocation) :=
  match layout.storage.find? (fun v => v.label = varName) with
  | none => Except.ok none
  | some storageVar =>
    match lookupType layout.types storageVar.type with
    | none => Except.error "Type information not found for variable"
    | some varType =>
      let base : VarLocation :=
        { name := some varName, slot := storageVar.slot, offset := some storageVar.offset,
          size := parseIntD varType.numberOfBytes, type := storageVar.type,
          children := none, structInfo := some layout, parent := none }
      match varType.members with
      | some members =>
        if members.isEmpty then Except.ok (some base)
        else
          match members.mapM (fun m =>
            match calculateMemberSlot storageVar.slot m.offset with
            | Except.error e => Except.error e
            | Except.ok cslot =>
              match lookupType layout.types m.type with
              | none => Except.error "TypeError: cannot read numberOfBytes"
              | some mt =>
                Except.ok ({ name := some m.label, slot := cslot,
                             offset := some (m.offset % 32),
                             size := parseIntD mt.numberOfBytes, type := m.type,
                             children := none, structInfo := some layout,
                             parent := none } : VarLocation)) with
          | Except.error e => Except.error e
          | Except.ok children => Except.ok (some { base with children := some children })
      | none => Except.ok (some base)

/-!
## `src/path-utils.ts`
-/

/-- JS regex `^(t_[a-z0-9_]+)` (codes: `t` 116, `_` 95). -/
def matchTypeHead (s : JSString) : Option JSString :=
  match s with
  | 116 :: 95 :: rest =>
    let body := rest.takeWhile (fun c => (97 ≤ c && c ≤ 122) || isDigitCode c || c = 95)
    if body.isEmpty then none else some (116 :: 95 :: body)
  | _ => none

/-- JS regex `t_struct\(([^)]*)\)(\d+)_storage` — captured name and id
digits.  Anchored at the start: every call site guards the input with
`startsWith('t_struct')`, so a match, if any, begins at position 0. -/
def matchStructType (s : JSString) : Option (JSString × JSString) :=
  if (jstr "t_struct(").isPrefixOf s then
    let rest := s.drop 9
    let name := rest.takeWhile (fun c => c ≠ 41)
    match rest.drop name.length with
    | 41 :: after1 =>
      let ds := after1.takeWhile isDigitCode
      if ds.isEmpty then none
      else if (jstr "_storage").isPrefixOf (after1.drop ds.length) then some (name, ds)
      else none
    | _ => none
  else none

/-- JS regex `t_array\((.*?)\)` — the characters between the first
`t_array(` and the first `)` after it. -/
def matchArrayElemType (t : JSString) : Option JSString :=
  match findSubIdx t (jstr "t_array(") with
  | none => none
  | some i =>
    let rest := t.drop (i + 8)
    if rest.any (fun c => c = 41) then some (rest.takeWhile (fun c => c ≠ 41)) else none

/-- The key/value-type extraction block of `resolveMappingPath` (defaults
`t_uint256` / `t_bool`; arrow format, then comma format, then a bare head
match updating only the key type). -/
def parseMappingType (type : JSString) : JSString × JSString :=
  let dflt := (jstr "t_uint256", jstr "t_bool")
  if (jstr "t_mapping(").isPrefixOf type then
    match lastIdxOf type 41 with
    | some endParenIndex =>
      if endParenIndex > 10 then
        let innerContent := subStr type 10 endParenIndex
        if includesSub innerContent (jstr "=>") then
          let parts := splitOnSub innerContent (jstr "=>")
          (trimStr (parts.getD 0 []), trimStr (parts.getD 1 []))
        else if includesSub innerContent (jstr ",") then
          let parts := splitOnSub innerContent (jstr ",")
          (trimStr (parts.getD 0 []), trimStr (parts.getD 1 []))
        else
          match matchTypeHead innerContent with
          | some k => (k, dflt.2)
          | none => dflt
      else dflt
    | none => dflt
  else dflt

/-- `getSizeForType(type)` from `path-utils.ts`. -/
def getSizeForType (type : JSString) : Nat :=
  if (jstr "t_uint8").isPrefixOf type ∨ (jstr "t_bool").isPrefixOf type then 1
  else if (jstr "t_uint16").isPrefixOf type then 2
  else if (jstr "t_uint32").isPrefixOf type then 4
  else if (jstr "t_uint64").isPrefixOf type then 8
  else if (jstr "t_uint128").isPrefixOf type then 16
  else 32

/-- `calculateRelativeSlot(baseSlot, relativeSlot)`: base read with
`getBigInt` when `0x`-prefixed, else `BigInt(parseInt(baseSlot, 10))`;
relative part via `parseInt`; result `0x` plus hex. -/
def calculateRelativeSlot (baseSlot relativeSlot : JSString) : Except String JSString :=
  let baseV : Option Nat :=
    if hasHex0x baseSlot then getBigIntJS baseSlot else parseIntJS baseSlot
  match baseV, parseIntJS relativeSlot with
  | some b, some r => Except.ok (hex0xStr (b + r))
  | _, _ => Except.error "Cannot convert NaN to a BigInt"

mutual

/-- The key-formatting block of `resolveMappingPath` ("Format the key based
on its type"): address-typed keys get `0x` ensured; numeric-typed keys are
normalised through `BigInt(key).toString()` with the parse failure caught
and the key kept as is; all other declared key types leave the key
untouched. -/
def formatMappingKey (keyType key : JSString) : JSString :=
  if includesSub keyType (jstr "t_address") then
    (if hasHex0x key then key else 48 :: 120 :: key)
  else if includesSub keyType (jstr "t_uint") || includesSub keyType (jstr "t_int") then
    match jsBigIntOfStr key with
    | some n => decToStr n
    | none => key
  else key

/-- `resolveMappingPath(varLocation, path)` with explicit structural fuel
(any fuel above the path length computes the JS function; the wrappers
below pass `path.length + 1`).  An empty path makes the JS code hash the
key `undefined`, whose `startsWith` access throws — hence the error. -/
def resolveMappingPathAux : Nat → VarLocation → List JSString → Except String StorageLocation
  | 0, _, _ => Except.error "out of fuel"
  | _ + 1, _, [] => Except.error "TypeError: cannot read properties of undefined"
  | fuel + 1, varLocation, key :: rest =>
    let kv := parseMappingType varLocation.type
    let keyType := kv.1
    let valueType := kv.2
    let formattedKey := formatMappingKey keyType key
    match calculateMappingSlot varLocation.slot formattedKey with
    | Except.error e => Except.error e
    | Except.ok mappingSlot =>
      if rest.isEmpty then
        Except.ok { slot := mappingSlot, offset := none, size := getSizeForType valueType,
                    type := valueType, children := none }
      else if (jstr "t_mapping").isPrefixOf valueType then
        resolveMappingPathAux fuel
          { name := some (jstr "innerMapping"), slot := mappingSlot, offset := none,
            size := 32, type := valueType, children := none, structInfo := none,
            parent := none } rest
      else if (jstr "t_array").isPrefixOf valueType then
        resolveArrayPathAux fuel
          { name := some (jstr "innerArray"), slot := mappingSlot, offset := none,
            size := 32, type := valueType, children := none, structInfo := none,
            parent := none } rest
      else if (jstr "t_struct").isPrefixOf valueType then
        let structMatch := matchStructType valueType
        let structName :=
          match structMatch with
          | some (n, _) => if n.isEmpty then jstr "unknown" else n
          | none => jstr "unknown"
        let structChildrenE : Except String (Option (List VarLocation)) :=
          match varLocation.structInfo with
          | none => Except.ok none
          | some si =>
            match si.types.find? (fun p =>
              (p.2.label == jstr "struct " ++ structName) ||
              (p.2.label == jstr "struct TestContract." ++ structName) ||
              (match structMatch with
               | some (n, _) => p.2.label == jstr "struct " ++ n
               | none => false)) with
            | none => Except.ok none
            | some (_, structType) =>
              match structType.members with
              | none => Except.ok none
              | some members =>
                (members.mapM (fun (m : LayoutMember) =>
                  match calculateRelativeSlot mappingSlot
                      (if m.slot.isEmpty then jstr "0" else m.slot) with
                  | Except.error e => Except.error e
                  | Except.ok cslot =>
                    let msize := parseIntD (match lookupType si.types m.type with
                      | some t =>
                        if t.numberOfBytes.isEmpty then jstr "32" else t.numberOfBytes
                      | none => jstr "32")
                    Except.ok ({ name := some m.label, slot := cslot,
                                 offset := some m.offset, size := msize,
                                 type := m.type, children := none, structInfo := none,
                                 parent := none } : VarLocation))).map some
        match structChildrenE with
        | Except.error e => Except.error e
        | Except.ok structChildren =>
          resolveStructPathAux fuel
            { name := some structName, slot := mappingSlot, offset := none, size := 32,
              type := valueType, children := structChildren, structInfo := none,
              parent := none } rest
      else
        Except.ok { slot := mappingSlot, offset := none, size := getSizeForType valueType,
                    type := valueType, children := none }

/-- `resolveArrayPath(varLocation, path)` with explicit structural fuel. -/
def resolveArrayPathAux : Nat → VarLocation → List JSString → Except String StorageLocation
  | 0, _, _ => Except.error "out of fuel"
  | _ + 1, varLocation, [] =>
    Except.ok { slot := varLocation.slot, offset := varLocation.offset,
                size := varLocation.size, type := varLocation.type, children := none }
  | fuel + 1, varLocation, index :: remainingPath =>
    if index = jstr "length" ∨ index = jstr ".length" then
      if !remainingPath.isEmpty then
        resolveStructPathAux fuel
          { name := some ((match varLocation.name with
              | some n => n
              | none => jstr "undefined") ++ jstr ".length"),
            slot := varLocation.slot, offset := some 0, size := 32,
            type := jstr "t_uint256", children := none, structInfo := none,
            parent := none } remainingPath
      else
        Except.ok { slot := varLocation.slot, offset := some 0, size := 32,
                    type := jstr "t_uint256", children := none }
    else
      let elementSlotE :=
        if includesSub varLocation.type (jstr "t_array") &&
           includesSub varLocation.type (jstr "dyn") then
          calculateDynamicArraySlot varLocation.slot index
        else
          match parseIntJS index with
          | none => Except.error "Cannot convert NaN to a BigInt"
          | some i => calculateArraySlot varLocation.slot i
      match elementSlotE with
      | Except.error e => Except.error e
      | Except.ok elementSlot =>
        match matchArrayElemType varLocation.type with
        | none => Except.error "Invalid array type"
        | some elementType =>
          if elementType.isEmpty then Except.error "Invalid array type"
          else if remainingPath.isEmpty then
            Except.ok { slot := elementSlot, offset := none,
                        size := getSizeForType elementType, type := elementType,
                        children := none }
          else if (jstr "t_struct").isPrefixOf elementType then
            resolveStructPathAux fuel
              { name := some (jstr "innerStruct"), slot := elementSlot, offset := none,
                size := getSizeForType elementType, type := elementType,
                children := varLocation.children, structInfo := none,
                parent := none } remainingPath
          else if (jstr "t_array").isPrefixOf elementType then
            resolveArrayPathAux fuel
              { name := some (jstr "innerArray"), slot := elementSlot, offset := none,
                size := 32, type := elementType, children := none, structInfo := none,
                parent := none } remainingPath
          else if (jstr "t_mapping").isPrefixOf elementType then
            resolveMappingPathAux fuel
              { name := some (jstr "innerMapping"), slot := elementSlot, offset := none,
                size := 32, type := elementType, children := none, structInfo := none,
                parent := none } remainingPath
          else Except.error "Unsupported nested array element type"

/-- `resolveStructPath(varLocation, path)` with explicit structural fuel.
Children recovery from `parent.types` yields raw layout members, which have
no `name` property and therefore never match a field name; the further
fallback through the process-global `hre` is host-environment state outside
the modelled core (spec section 2) and is treated as absent. -/
def resolveStructPathAux : Nat → VarLocation → List JSString → Except String StorageLocation
  | 0, _, _ => Except.error "out of fuel"
  | fuel + 1, varLocation, path =>
    let childrenEmpty :=
      match varLocation.children with
      | none => true
      | some cs => cs.isEmpty
    let varLoc1 : VarLocation :=
      if childrenEmpty then
        match varLocation.parent with
        | some ptypes =>
          if varLocation.type.isEmpty then varLocation
          else
            match lookupType ptypes varLocation.type with
            | some structInfo =>
              match structInfo.members with
              | some ms =>
                { varLocation with children := some (ms.map (fun m =>
                    ({ name := none, slot := m.slot, offset := some m.offset, size := 0,
                       type := m.type, children := none, structInfo := none,
                       parent := none } : VarLocation))) }
              | none => varLocation
            | none => varLocation
        | none => varLocation
      else varLocation
    match varLoc1.children with
    | none => Except.error "No struct members information found"
    | some children =>
      if children.isEmpty then Except.error "No struct members information found"
      else
        match path with
        | [] => Except.error "Field not found in struct: undefined"
        | fieldName :: rest =>
          match children.find? (fun c => c.name = some fieldName) with
          | none => Except.error "Field not found in struct"
          | some field =>
            if rest.isEmpty then
              Except.ok { slot := field.slot, offset := field.offset, size := field.size,
                          type := field.type, children := none }
            else if (jstr "t_struct").isPrefixOf field.type then
              resolveStructPathAux fuel
                (match varLocation.parent with
                 | some p => { field with parent := some p }
                 | none => field) rest
            else if (jstr "t_mapping").isPrefixOf field.type then
              resolveMappingPathAux fuel field rest
            else if (jstr "t_array").isPrefixOf field.type then
              resolveArrayPathAux fuel field rest
            else Except.error "Unsupported nested struct field type"

end

/-- `resolveMappingPath` as the JS function of the location and path. -/
def resolveMappingPath (varLocation : VarLocation) (path : List JSString) :
    Except String StorageLocation :=
  resolveMappingPathAux (path.length + 1) varLocation path

/-- `resolveArrayPath` as the JS function of the location and path. -/
def resolveArrayPath (varLocation : VarLocation) (path : List JSString) :
    Except String StorageLocation :=
  resolveArrayPathAux (path.length + 1) varLocation path

/-- `resolveStructPath` as the JS function of the location and path. -/
def resolveStructPath (varLocation : VarLocation) (path : List JSString) :
    Except String StorageLocation :=
  resolveStructPathAux (path.length + 1) varLocation path

/-- `getStorageLocation` (without the artifact file I/O: the parsed layout
is taken as the argument `loadStorageLayout` would have produced). -/
def getStorageLocation (layout : StorageLayoutInfo) (varName : JSString)
    (varPath : List JSString) : Except String StorageLocation :=
  match findVariableLocation layout varName with
  | Except.error e => Except.error e
  | Except.ok none => Except.error "Variable not found in contract"
  | Except.ok (some varLocation) =>
    if varPath.isEmpty then
      Except.ok { slot := varLocation.slot, offset := varLocation.offset,
                  size := varLocation.size, type := varLocation.type,
                  children := varLocation.children }
    else
      let varType := varLocation.type
      if (jstr "t_mapping").isPrefixOf varType then resolveMappingPath varLocation varPath
      else if (jstr "t_array").isPrefixOf varType then resolveArrayPath varLocation varPath
      else if (jstr "t_struct").isPrefixOf varType then resolveStructPath varLocation varPath
      else Except.error "Unsupported variable type for path access"

/-!
## `src/slot-utils.ts` and the `setState` entry of `src/index.ts`

The backend (`eth_getStorageAt` / `hardhat_setStorageAt`) is modelled by a
word-valued read function together with the trace of calls issued; slots
and 32-byte words appear by their numeric values (the JS strings carrying
them are parsed/printed at these call boundaries only).
-/

/-- One JSON-RPC storage call issued to the backend. -/
inductive BackendCall where
  | get (slot : Nat)
  | set (slot : Nat) (word : Nat)
deriving DecidableEq, Repr

/-- Structural decidable equality for `Except` results, used to settle
concrete claim instances by `decide`. -/
instance {e a : Type} [DecidableEq e] [DecidableEq a] : DecidableEq (Except e a) := fun x y =>
  match x, y with
  | Except.ok u, Except.ok v =>
    if h : u = v then Decidable.isTrue (by rw [h]) else Decidable.isFalse (by
      intro hc
      cases hc
      exact h rfl)
  | Except.error u, Except.error v =>
    if h : u = v then Decidable.isTrue (by rw [h]) else Decidable.isFalse (by
      intro hc
      cases hc
      exact h rfl)
  | Except.ok _, Except.error _ => Decidable.isFalse (by intro hc; cases hc)
  | Except.error _, Except.ok _ => Decidable.isFalse (by intro hc; cases hc)

/-- Does a trace contain a backend read? -/
def hasGet (calls : List BackendCall) : Bool :=
  calls.any (fun c => match c with | BackendCall.get _ => true | _ => false)

/-- `formatSlot(slot)` of `slot-utils.ts`, by the numeric value of the hex
string it produces: `0x…` kept; else `BigInt` (decimal) when it parses;
else the hex-digit regex adds `0x`; else `0x` is assumed.  (For strings
that are neither decimal nor hex the JS result is an invalid word no
backend accepts; its numeric reading here is immaterial.) -/
def formatSlot (slot : JSString) : Nat :=
  if hasHex0x slot then hexVal (slot.drop 2)
  else if isDigits slot then decVal slot
  else hexVal slot

/-- The mask/clear/or merge block of `setPartialSlotValue` (named
`mergePartialWord` in the specification): `~mask` of JS `BigInt` clears
exactly the mask bits, which on naturals is `Nat.ldiff`. -/
def mergePartialWord (currentValue newValue : Nat) (offset size : Nat) : Nat :=
  let mask := ((1 <<< (size * 8)) - 1) <<< (offset * 8)
  let clearedValue := Nat.ldiff currentValue mask
  let shiftedValue := (newValue <<< (offset * 8)) &&& mask
  clearedValue ||| shiftedValue

/-- `setPartialSlotValue(hre, address, slot, value, offset, size)`: one
backend read of the slot, then one write of the merged word. -/
def setPartialSlotValue (storage : Nat → Nat) (slot : Nat) (value : Nat)
    (offset size : Nat) : List BackendCall :=
  let currentValue := storage slot
  [BackendCall.get slot, BackendCall.set slot (mergePartialWord currentValue value offset size)]

/-- A JS value passed to `setState` (`value: any`). -/
inductive JSValue where
  | num (n : Int)
  | str (s : JSString)
  | jsBool (b : Bool)
deriving DecidableEq, Repr

/-- JS `BigInt(value)` on the values above; `none` models a throw. -/
def jsBigIntOf : JSValue → Option Int
  | JSValue.num n => some n
  | JSValue.jsBool b => some (if b then 1 else 0)
  | JSValue.str s => (jsBigIntOfStr s).map Int.ofNat

/-- JS truthiness of a value. -/
def jsTruthy : JSValue → Bool
  | JSValue.num n => n ≠ 0
  | JSValue.jsBool b => b
  | JSValue.str s => !s.isEmpty

/-- `encodeUintForStorage(value, size)`: `BigInt(value)` rendered as a
64-hex-char word with NO range check against `size`; values of 2^256 or
more simply render more than 64 hex digits.  The catch branch returns the
zero word.  (A negative value would render a malformed `0x-…` string no
backend accepts; only `t_int` paths receive negatives in practice, so its
numeric reading here is the clamp to 0.) -/
def encodeUintForStorage (value : JSValue) (size : Nat) : Nat :=
  match jsBigIntOf value with
  | some n => n.toNat
  | none => 0

/-- `encodeIntForStorage(value, size)`: negative values are masked to the
low `size*8` bits (two's complement in exactly the declared width);
non-negative values are NOT range-checked.  `BigInt` throws propagate
(there is no catch here). -/
def encodeIntForStorage (value : JSValue) (size : Nat) : Except String Nat :=
  match jsBigIntOf value with
  | none => Except.error "SyntaxError: cannot convert to a BigInt"
  | some n =>
    Except.ok (if n < 0 then (n % ((2 : Int) ^ (size * 8))).toNat else n.toNat)

/-- `encodeBoolForStorage(value)`. -/
def encodeBoolForStorage (value : JSValue) : Nat :=
  if jsTruthy value then 1 else 0

/-- `encodeAddressForStorage(value)`: strip `0x`, lower-case, left-pad to
64 hex chars; numeric value of those hex characters.  A non-string value
throws (`value.startsWith` is not a function). -/
def encodeAddressForStorage : JSValue → Except String Nat
  | JSValue.str s => Except.ok (hexVal (if hasHex0x s then s.drop 2 else s))
  | _ => Except.error "TypeError: value.startsWith is not a function"

/-- `encodeStringForStorage(value)`: at most 31 character codes encode as
the bytes left-aligned, zero-padded to 31 bytes, with the final byte
`2 * length`; longer inputs throw.  A non-string value has no `.length`,
`undefined <= 31` is false in JS, and the same throw is reached.  (Char
codes above 255 would break the two-hex-chars-per-byte alignment; all
claim inputs are ASCII.) -/
def encodeStringForStorage : JSValue → Except String Nat
  | JSValue.str s =>
    if s.length ≤ 31 then
      Except.ok (bytesToNatBE (s ++ List.replicate (31 - s.length) 0 ++ [2 * s.length]))
    else Except.error "Long strings not supported for direct storage setting"
  | _ => Except.error "Long strings not supported for direct storage setting"

/-- `encodeValueForStorage(value, location)`: dispatch on the type-string
head exactly as the source does. -/
def encodeValueForStorage (value : JSValue) (location : StorageLocation) :
    Except String Nat :=
  let t := location.type
  if (jstr "t_uint").isPrefixOf t then Except.ok (encodeUintForStorage value location.size)
  else if (jstr "t_int").isPrefixOf t then encodeIntForStorage value location.size
  else if (jstr "t_bool").isPrefixOf t then Except.ok (encodeBoolForStorage value)
  else if (jstr "t_address").isPrefixOf t then encodeAddressForStorage value
  else if (jstr "t_string").isPrefixOf t ∨ (jstr "t_bytes").isPrefixOf t then
    encodeStringForStorage value
  else if (jstr "t_enum").isPrefixOf t then Except.ok (encodeUintForStorage value location.size)
  else if (jstr "t_contract").isPrefixOf t then encodeAddressForStorage value
  else Except.ok (encodeUintForStorage value location.size)

/-- `setSlotValue({location, value, contractAddress, hre})`: encode first;
then a partial read-merge-write only when `offset !== undefined && offset > 0`,
otherwise a single whole-slot write.  The returned trace is the list of
backend calls issued. -/
def setSlotValue (storage : Nat → Nat) (location : StorageLocation) (value : JSValue) :
    Except String (List BackendCall) :=
  match encodeValueForStorage value location with
  | Except.error e => Except.error e
  | Except.ok encodedValue =>
    let formattedSlot := formatSlot location.slot
    match location.offset with
    | some o =>
      if o > 0 then
        Except.ok (setPartialSlotValue storage formattedSlot encodedValue o location.size)
      else Except.ok [BackendCall.set formattedSlot encodedValue]
    | none => Except.ok [BackendCall.set formattedSlot encodedValue]

/-- `setState(params)` of `src/index.ts`: resolve, then write; any throw is
caught and turned into `false` with, at that point, no backend call made.
Result: success flag and the trace of backend calls issued. -/
def setState (layout : StorageLayoutInfo) (storage : Nat → Nat) (varName : JSString)
    (path : List JSString) (value : JSValue) : Bool × List BackendCall :=
  match getStorageLocation layout varName path with
  | Except.error _ => (false, [])
  | Except.ok location =>
    match setSlotValue storage location value with
    | Except.error _ => (false, [])
    | Except.ok calls => (true, calls)


/-!
## Concrete inputs used by the claim theorems

`personLayout` mirrors the `TestContract` layout fragment the test suite
exercises: `person` is a struct at slot 5 whose `age` member has relative
slot 1 and byte offset 0 (see `contracts/TestContract.sol` and the
storage-slot exploration in `test/TestContract.test.ts`).
-/

/-- A layout with `person : Person` at slot 5; `age` is the member at
relative slot 1, offset 0. -/
def personLayout : StorageLayoutInfo :=
  { storage := [{ label := jstr "person", slot := jstr "5", offset := 0,
                  type := jstr "t_struct(Person)7_storage" }],
    types := [
      (jstr "t_struct(Person)7_storage",
        { label := jstr "struct TestContract.Person", numberOfBytes := jstr "128",
          members := some [
            { label := jstr "name", slot := jstr "0", offset := 0,
              type := jstr "t_string_storage" },
            { label := jstr "age", slot := jstr "1", offset := 0,
              type := jstr "t_uint256" },
            { label := jstr "wallet", slot := jstr "2", offset := 0,
              type := jstr "t_address" },
            { label := jstr "active", slot := jstr "2", offset := 20,
              type := jstr "t_bool" }] }),
      (jstr "t_string_storage",
        { label := jstr "string", numberOfBytes := jstr "32", members := none }),
      (jstr "t_uint256",
        { label := jstr "uint256", numberOfBytes := jstr "32", members := none }),
      (jstr "t_address",
        { label := jstr "address", numberOfBytes := jstr "20", members := none }),
      (jstr "t_bool",
        { label := jstr "bool", numberOfBytes := jstr "1", members := none })] }

/-- A variable location for a `mapping(string => uint256)` at slot 0. -/
def strKeyMapLoc : VarLocation :=
  { name := some (jstr "m"), slot := jstr "0", offset := some 0, size := 32,
    type := jstr "t_mapping(t_string,t_uint256)", children := none,
    structInfo := none, parent := none }

/-- A variable location builder for single-level mapping claims. -/
def mapLoc (slot type : JSString) : VarLocation :=
  { name := some (jstr "m"), slot := slot, offset := some 0, size := 32,
    type := type, children := none, structInfo := none, parent := none }

/-- A variable location for a fixed `uint256[5]` array at a given slot. -/
def fixedArrayLoc (slot : JSString) : VarLocation :=
  { name := some (jstr "a"), slot := slot, offset := some 0, size := 160,
    type := jstr "t_array(t_uint256)5_storage", children := none,
    structInfo := none, parent := none }

/-- An empty storage layout (no variables): every resolution fails. -/
def emptyLayout : StorageLayoutInfo := { storage := [], types := [] }

/-- A layout with a single short-string variable `s` at slot 1. -/
def strLayout : StorageLayoutInfo :=
  { storage := [{ label := jstr "s", slot := jstr "1", offset := 0,
                  type := jstr "t_string_storage" }],
    types := [
      (jstr "t_string_storage",
        { label := jstr "string", numberOfBytes := jstr "32", members := none })] }

end StateSetter

namespace StateSetter

/-!
## Helper lemmas
-/

theorem natDigitsAux_ofDigits (base : Nat) (hb : 2 ≤ base) :
    ∀ fuel n, n ≤ fuel → Nat.ofDigits base (natDigitsAux base fuel n) = n := by
  intro fuel
  induction fuel with
  | zero => intro n hn; interval_cases n; simp [natDigitsAux, Nat.ofDigits_nil]
  | succ fuel ih =>
    intro n hn
    by_cases h0 : n = 0
    · simp [natDigitsAux, h0, Nat.ofDigits_nil]
    · have hdiv : n / base ≤ fuel := by
        have : n / base < n := Nat.div_lt_self (Nat.pos_of_ne_zero h0) (by omega)
        omega
      simp only [natDigitsAux, h0, if_false, Nat.ofDigits_cons, ih _ hdiv]
      exact Nat.mod_add_div n base

theorem natDigitsAux_lt (base : Nat) (hb : 0 < base) :
    ∀ fuel n d, d ∈ natDigitsAux base fuel n → d < base := by
  intro fuel
  induction fuel with
  | zero => intro n d hd; simp [natDigitsAux] at hd
  | succ fuel ih =>
    intro n d hd
    by_cases h0 : n = 0
    · simp [natDigitsAux, h0] at hd
    · simp only [natDigitsAux, h0, if_false, List.mem_cons] at hd
      rcases hd with h | h
      · subst h; exact Nat.mod_lt _ hb
      · exact ih _ _ h

theorem decVal_append_singleton (xs : List Nat) (c : Nat) :
    decVal (xs ++ [c]) = 10 * decVal xs + (c - 48) := by
  simp [decVal, List.foldl_append]

theorem decVal_revMap (L : List Nat) :
    decVal ((L.reverse).map (fun d => d + 48)) = Nat.ofDigits 10 L := by
  induction L with
  | nil => simp [decVal, Nat.ofDigits_nil]
  | cons d L ih =>
    simp only [List.reverse_cons, List.map_append, List.map_cons, List.map_nil]
    rw [decVal_append_singleton, ih, Nat.ofDigits_cons]
    omega

theorem decVal_decToStr (n : Nat) : decVal (decToStr n) = n := by
  by_cases h0 : n = 0
  · simp [decToStr, h0, decVal]
  · simp only [decToStr, h0, if_false]
    rw [decVal_revMap, natDigitsAux_ofDigits 10 (by omega) n n (Nat.le_refl n)]

theorem hexVal_append_singleton (xs : List Nat) (c : Nat) :
    hexVal (xs ++ [c]) = 16 * hexVal xs + hexDigitVal c := by
  simp [hexVal, List.foldl_append]

theorem hexDigitVal_encode (d : Nat) (hd : d < 16) :
    hexDigitVal (if d < 10 then d + 48 else d + 87) = d := by
  by_cases h : d < 10 <;> simp [hexDigitVal, h] <;> omega

theorem hexVal_revMap (L : List Nat) (hL : ∀ d ∈ L, d < 16) :
    hexVal ((L.reverse).map (fun d => if d < 10 then d + 48 else d + 87)) =
      Nat.ofDigits 16 L := by
  induction L with
  | nil => simp [hexVal, Nat.ofDigits_nil]
  | cons d L ih =>
    simp only [List.reverse_cons, List.map_append, List.map_cons, List.map_nil]
    rw [hexVal_append_singleton, ih (fun x hx => hL x (List.mem_cons_of_mem _ hx)),
      Nat.ofDigits_cons, hexDigitVal_encode d (hL d (List.mem_cons_self _ _))]
    omega

theorem hexVal_hexToStr (n : Nat) : hexVal (hexToStr n) = n := by
  by_cases h0 : n = 0
  · simp [hexToStr, h0, hexVal, hexDigitVal]
  · simp only [hexToStr, h0, if_false]
    rw [hexVal_revMap _ (fun d hd => natDigitsAux_lt 16 (by omega) n n d hd),
      natDigitsAux_ofDigits 16 (by omega) n n (Nat.le_refl n)]

theorem hexVal_replicate_zero_append (k : Nat) (s : List Nat) :
    hexVal (List.replicate k 48 ++ s) = hexVal s := by
  induction k with
  | zero => simp
  | succ k ih =>
    simpa [List.replicate_succ, hexVal, hexDigitVal] using ih

theorem hexVal_padStart (n : Nat) (s : List Nat) :
    hexVal (padStartChars n 48 s) = hexVal s := by
  simp [padStartChars, hexVal_replicate_zero_append]

theorem hexVal_keccakHexStr (bytes : List Nat) :
    hexVal ((keccakHexStr bytes).drop 2) = Keccak.keccak256Nat bytes := by
  simp [keccakHexStr, hexVal_padStart, hexVal_hexToStr]

theorem hasHex0x_keccakHexStr (bytes : List Nat) : hasHex0x (keccakHexStr bytes) = true := by
  simp [keccakHexStr, hasHex0x]

theorem decVal_jstr_append (s : List Nat) (c : Nat) :
    decVal (s ++ [c]) = 10 * decVal s + (c - 48) := decVal_append_singleton s c

theorem bytesToNatBE_append_singleton (xs : List Nat) (b : Nat) :
    bytesToNatBE (xs ++ [b]) = 256 * bytesToNatBE xs + b := by
  simp [bytesToNatBE, List.foldl_append]

theorem byteAt_testBit (x i k : Nat) :
    (byteAt x i).testBit k = (decide (k < 8) && x.testBit (8 * i + k)) := by
  have h : byteAt x i = (x >>> (8 * i)) % 2 ^ 8 := by norm_num [byteAt]
  rw [h, Nat.testBit_mod_two_pow, Nat.testBit_shiftRight]

theorem testBit_mergeMask (size offset j : Nat) :
    (((1 <<< (size * 8)) - 1) <<< (offset * 8)).testBit j =
      (decide (offset * 8 ≤ j) && decide (j < offset * 8 + size * 8)) := by
  rw [Nat.testBit_shiftLeft, Nat.one_shiftLeft, Nat.testBit_two_pow_sub_one]
  by_cases h1 : offset * 8 ≤ j
  · have hge : j ≥ offset * 8 := h1
    by_cases h2 : j < offset * 8 + size * 8
    · have : j - offset * 8 < size * 8 := by omega
      simp [hge, h1, h2, this]
    · have : ¬ (j - offset * 8 < size * 8) := by omega
      simp [hge, h1, h2, this]
  · have : ¬ (j ≥ offset * 8) := h1
    simp [this, h1]

theorem mergePartialWord_testBit (cur val offset size j : Nat) :
    (mergePartialWord cur val offset size).testBit j =
      if offset * 8 ≤ j ∧ j < offset * 8 + size * 8 then val.testBit (j - offset * 8)
      else cur.testBit j := by
  have hm := testBit_mergeMask size offset
  simp only [mergePartialWord]
  generalize hM : ((1 <<< (size * 8)) - 1) <<< (offset * 8) = M at hm
  simp only [Nat.testBit_or, Nat.testBit_ldiff, Nat.testBit_and, hm, Nat.testBit_shiftLeft]
  by_cases h1 : offset * 8 ≤ j <;> by_cases h2 : j < offset * 8 + size * 8 <;>
    simp [h1, h2, ge_iff_le]

/-- The central byte-surgery fact about the partial-word merge: every byte
inside the written window becomes the corresponding byte of the encoded
value, every byte outside it is the byte of the current word.  No side
condition is needed: the mask is byte-aligned, so a byte is never split. -/
theorem mergePartialWord_byte (cur val offset size i : Nat) :
    byteAt (mergePartialWord cur val offset size) i =
      if offset ≤ i ∧ i < offset + size then byteAt val (i - offset) else byteAt cur i := by
  apply Nat.eq_of_testBit_eq
  intro k
  by_cases hw : offset ≤ i ∧ i < offset + size
  · rw [if_pos hw, byteAt_testBit, byteAt_testBit, mergePartialWord_testBit]
    by_cases hk : k < 8
    · have hcond : offset * 8 ≤ 8 * i + k ∧ 8 * i + k < offset * 8 + size * 8 := by omega
      rw [if_pos hcond]
      have harg : 8 * i + k - offset * 8 = 8 * (i - offset) + k := by omega
      rw [harg]
    · simp [hk]
  · rw [if_neg hw, byteAt_testBit, byteAt_testBit, mergePartialWord_testBit]
    by_cases hk : k < 8
    · have hcond : ¬ (offset * 8 ≤ 8 * i + k ∧ 8 * i + k < offset * 8 + size * 8) := by
        omega
      rw [if_neg hcond]
    · simp [hk]


theorem isDigitCode_natDigit (d : Nat) (hd : d < 10) : isDigitCode (d + 48) = true := by
  simp [isDigitCode]; omega

theorem natDigitsAux_ne_nil (base n : Nat) (h0 : n ≠ 0) :
    natDigitsAux base n n ≠ [] := by
  cases hn : n with
  | zero => exact absurd hn h0
  | succ m =>
    show natDigitsAux base (m + 1) (m + 1) ≠ []
    simp [natDigitsAux]

theorem isDigits_decToStr (n : Nat) : isDigits (decToStr n) = true := by
  by_cases h0 : n = 0
  · simp [decToStr, h0, isDigits, isDigitCode]
  · simp only [decToStr, h0, if_false, isDigits, Bool.and_eq_true, Bool.not_eq_true',
      List.all_eq_true]
    constructor
    · rw [List.isEmpty_eq_false]
      simp only [ne_eq, List.map_eq_nil_iff, List.reverse_eq_nil_iff]
      exact natDigitsAux_ne_nil 10 n h0
    · intro c hc
      rw [List.mem_map] at hc
      obtain ⟨d, hd, rfl⟩ := hc
      rw [List.mem_reverse] at hd
      exact isDigitCode_natDigit d (natDigitsAux_lt 10 (by omega) n n d hd)

theorem hasHex0x_of_isDigits (s : JSString) (h : isDigits s = true) :
    hasHex0x s = false := by
  match s with
  | [] => rfl
  | [_] => rfl
  | a :: b :: t =>
    simp only [isDigits, Bool.and_eq_true, List.all_eq_true] at h
    have hb := h.2 b (by simp)
    simp only [isDigitCode, Bool.and_eq_true, decide_eq_true_eq] at hb
    show (a == 48 && b == 120) = false
    have : (b == 120) = false := by
      rw [beq_eq_false_iff_ne]
      omega
    simp [this]

theorem isHexDigitCode_of_isDigitCode (c : Nat) (h : isDigitCode c = true) :
    isHexDigitCode c = true := by
  simp only [isDigitCode, Bool.and_eq_true, decide_eq_true_eq] at h
  simp only [isHexDigitCode, Bool.or_eq_true, Bool.and_eq_true, decide_eq_true_eq]
  omega

theorem isHexDigits_of_isDigits (s : JSString) (h : isDigits s = true) :
    isHexDigits s = true := by
  simp only [isDigits, Bool.and_eq_true, List.all_eq_true] at h
  simp only [isHexDigits, Bool.and_eq_true, List.all_eq_true, h.1, true_and]
  exact fun c hc => isHexDigitCode_of_isDigitCode c (h.2 c hc)

theorem isDigits_isEmpty_false (s : JSString) (h : isDigits s = true) :
    s.isEmpty = false := by
  simp only [isDigits, Bool.and_eq_true, Bool.not_eq_true'] at h
  exact h.1

theorem jsBigIntOfStr_digits (s : JSString) (h : isDigits s = true) :
    jsBigIntOfStr s = some (decVal s) := by
  simp [jsBigIntOfStr, isDigits_isEmpty_false s h, h]

theorem bytesToNatBE_foldl (a : Nat) (bs : List Nat) :
    bs.foldl (fun x b => 256 * x + b) a = a * 256 ^ bs.length + bytesToNatBE bs := by
  induction bs generalizing a with
  | nil => simp [bytesToNatBE]
  | cons b t ih =>
    simp only [List.foldl_cons, List.length_cons, bytesToNatBE]
    rw [ih (256 * a + b), ih (256 * 0 + b)]
    ring

theorem bytesToNatBE_append (xs ys : List Nat) :
    bytesToNatBE (xs ++ ys) = bytesToNatBE xs * 256 ^ ys.length + bytesToNatBE ys := by
  simp only [bytesToNatBE, List.foldl_append]
  exact bytesToNatBE_foldl _ ys

theorem bytesToNatBE_lt (bs : List Nat) (h : ∀ b ∈ bs, b < 256) :
    bytesToNatBE bs < 256 ^ bs.length := by
  induction bs with
  | nil => simp [bytesToNatBE]
  | cons b t ih =>
    have hb : b < 256 := h b (by simp)
    have ht : bytesToNatBE t < 256 ^ t.length :=
      ih (fun x hx => h x (List.mem_cons_of_mem _ hx))
    have : bytesToNatBE (b :: t) = b * 256 ^ t.length + bytesToNatBE t := by
      have := bytesToNatBE_append [b] t
      simpa [bytesToNatBE] using this
    rw [this]
    calc b * 256 ^ t.length + bytesToNatBE t
        < b * 256 ^ t.length + 256 ^ t.length := by omega
      _ = (b + 1) * 256 ^ t.length := by ring
      _ ≤ 256 * 256 ^ t.length := by
          exact Nat.mul_le_mul_right _ (by omega)
      _ = 256 ^ (t.length + 1) := by ring
      _ = 256 ^ (b :: t).length := by simp

theorem two_pow_eight_mul (k : Nat) : 2 ^ (8 * k) = 256 ^ k := by
  rw [Nat.pow_mul]

/-- Reading back the 32 bytes of the value of a 32-byte big-endian list
gives the list itself. -/
theorem natToBytes32_bytesToNatBE (bs : List Nat) (h32 : bs.length = 32)
    (hb : ∀ b ∈ bs, b < 256) : natToBytes32 (bytesToNatBE bs) = bs := by
  apply List.ext_getElem
  · simp [natToBytes32, h32]
  intro i h1 h2
  have hi : i < 32 := by simpa [natToBytes32] using h1
  simp only [natToBytes32, List.getElem_map, List.getElem_range]
  have hsplit1 : bs.take i ++ bs.drop i = bs := List.take_append_drop i bs
  have hdrop : bs.drop i = bs[i] :: bs.drop (i + 1) :=
    List.drop_eq_getElem_cons (by omega)
  have hlen_take : (bs.take i).length = i := by
    simp [List.length_take, h32]; omega
  have hlen_drop : (bs.drop (i + 1)).length = 31 - i := by
    simp [List.length_drop, h32]
  have hV : bytesToNatBE bs =
      (bytesToNatBE (bs.take i) * 256 + bs[i]) * 256 ^ (31 - i) +
        bytesToNatBE (bs.drop (i + 1)) := by
    calc bytesToNatBE bs = bytesToNatBE (bs.take i ++ bs.drop i) := by rw [hsplit1]
      _ = bytesToNatBE (bs.take i) * 256 ^ (bs.drop i).length +
            bytesToNatBE (bs.drop i) := bytesToNatBE_append _ _
      _ = (bytesToNatBE (bs.take i) * 256 + bs[i]) * 256 ^ (31 - i) +
            bytesToNatBE (bs.drop (i + 1)) := by
          rw [hdrop]
          have hl : (bs[i] :: bs.drop (i + 1)).length = 31 - i + 1 := by
            simp only [List.length_cons, hlen_drop]
          have hv : bytesToNatBE (bs[i] :: bs.drop (i + 1)) =
              bs[i] * 256 ^ (31 - i) + bytesToNatBE (bs.drop (i + 1)) := by
            have := bytesToNatBE_append [bs[i]] (bs.drop (i + 1))
            simpa [bytesToNatBE, hlen_drop] using this
          rw [hl, hv]
          ring
  have hR : bytesToNatBE (bs.drop (i + 1)) < 256 ^ (31 - i) := by
    have := bytesToNatBE_lt (bs.drop (i + 1))
      (fun b hbm => hb b (List.mem_of_mem_drop hbm))
    rwa [hlen_drop] at this
  rw [hV, Nat.shiftRight_eq_div_pow, two_pow_eight_mul]
  rw [Nat.mul_comm (bytesToNatBE (bs.take i) * 256 + bs[i]) (256 ^ (31 - i))]
  rw [Nat.mul_add_div (Nat.pos_pow_of_pos _ (by omega))]
  rw [Nat.div_eq_of_lt hR]
  have hbi : bs[i] < 256 := hb _ (bs.getElem_mem _)
  rw [Nat.add_zero, Nat.mul_comm (bytesToNatBE (bs.take i)) 256, Nat.mul_add_mod]
  exact Nat.mod_eq_of_lt hbi

theorem hexVal_foldl (a : Nat) (s : JSString) :
    s.foldl (fun x c => 16 * x + hexDigitVal c) a = a * 16 ^ s.length + hexVal s := by
  induction s generalizing a with
  | nil => simp [hexVal]
  | cons c t ih =>
    simp only [List.foldl_cons, List.length_cons, hexVal]
    rw [ih (16 * a + hexDigitVal c), ih (16 * 0 + hexDigitVal c)]
    ring

theorem hexDigitVal_lt (c : Nat) (h : isHexDigitCode c = true) : hexDigitVal c < 16 := by
  simp only [isHexDigitCode, Bool.or_eq_true, Bool.and_eq_true, decide_eq_true_eq] at h
  simp only [hexDigitVal]
  rcases h with h | h | h <;> (repeat' split) <;> omega

theorem hexCharsToBytes_spec : ∀ u : JSString, (∀ c ∈ u, isHexDigitCode c = true) →
    u.length % 2 = 0 →
    ∃ bs, hexCharsToBytes u = some bs ∧ bs.length = u.length / 2 ∧
      (∀ b ∈ bs, b < 256) ∧ bytesToNatBE bs = hexVal u
  | [], _, _ => ⟨[], rfl, rfl, by simp, rfl⟩
  | [c], hc, he => by simp at he
  | a :: b :: rest, hc, he => by
    have ha : isHexDigitCode a = true := hc a (by simp)
    have hb : isHexDigitCode b = true := hc b (by simp)
    have hrest : ∀ c ∈ rest, isHexDigitCode c = true :=
      fun c hcm => hc c (by simp [hcm])
    have herest : rest.length % 2 = 0 := by
      simp only [List.length_cons] at he
      omega
    obtain ⟨bs, h1, h2, h3, h4⟩ := hexCharsToBytes_spec rest hrest herest
    refine ⟨(16 * hexDigitVal a + hexDigitVal b) :: bs, ?_, ?_, ?_, ?_⟩
    · simp [hexCharsToBytes, ha, hb, h1]
    · simp only [List.length_cons, h2]
      omega
    · intro x hx
      rcases List.mem_cons.mp hx with h | h
      · have := hexDigitVal_lt a ha
        have := hexDigitVal_lt b hb
        omega
      · exact h3 x h
    · have hpow : (256 : Nat) ^ bs.length = 16 ^ rest.length := by
        rw [h2]
        have h2k : rest.length = 2 * (rest.length / 2) := by omega
        calc (256 : Nat) ^ (rest.length / 2) = (16 ^ 2) ^ (rest.length / 2) := by norm_num
          _ = 16 ^ (2 * (rest.length / 2)) := by rw [← Nat.pow_mul]
          _ = 16 ^ rest.length := by rw [← h2k]
      have hcons : bytesToNatBE ((16 * hexDigitVal a + hexDigitVal b) :: bs) =
          (16 * hexDigitVal a + hexDigitVal b) * 256 ^ bs.length + bytesToNatBE bs := by
        have := bytesToNatBE_append [16 * hexDigitVal a + hexDigitVal b] bs
        simpa [bytesToNatBE] using this
      rw [hcons, hpow, h4]
      have hval : hexVal (a :: b :: rest) =
          (16 * hexDigitVal a + hexDigitVal b) * 16 ^ rest.length + hexVal rest := by
        show List.foldl _ 0 (a :: b :: rest) = _
        simp only [List.foldl_cons]
        have := hexVal_foldl (16 * (16 * 0 + hexDigitVal a) + hexDigitVal b) rest
        simpa using this
      rw [hval]

theorem padStartChars_all (n c : Nat) (s : JSString) (p : Nat → Bool)
    (hc : p c = true) (hs : ∀ x ∈ s, p x = true) :
    ∀ x ∈ padStartChars n c s, p x = true := by
  intro x hx
  simp only [padStartChars, List.mem_append, List.mem_replicate] at hx
  rcases hx with ⟨-, rfl⟩ | hx
  · exact hc
  · exact hs x hx

theorem padStartChars_length (n c : Nat) (s : JSString) (h : s.length ≤ n) :
    (padStartChars n c s).length = n := by
  simp [padStartChars]
  omega

theorem hexCharsToBytes_pad64 (t : JSString)
    (hall : ∀ c ∈ t, isHexDigitCode c = true) (hlen : t.length ≤ 64) :
    hexCharsToBytes (padStartChars 64 48 t) = some (natToBytes32 (hexVal t)) := by
  have hlen64 : (padStartChars 64 48 t).length = 64 :=
    padStartChars_length 64 48 t hlen
  obtain ⟨bs, h1, h2, h3, h4⟩ := hexCharsToBytes_spec (padStartChars 64 48 t)
    (padStartChars_all 64 48 t isHexDigitCode (by decide) hall)
    (by rw [hlen64])
  rw [hlen64] at h2
  have hbs : bs = natToBytes32 (hexVal t) := by
    rw [← hexVal_padStart 64 t, ← h4]
    exact (natToBytes32_bytesToNatBE bs (by omega) h3).symm
  rw [h1, hbs]

theorem mappingKeyBytes_hexKey (key : JSString) (h0x : hasHex0x key = true)
    (hhex : isHexDigits (key.drop 2) = true) (hlen : (key.drop 2).length ≤ 64) :
    mappingKeyBytes key = some (natToBytes32 (hexVal (key.drop 2))) := by
  have hall : ∀ c ∈ key.drop 2, isHexDigitCode c = true := by
    simp only [isHexDigits, Bool.and_eq_true, List.all_eq_true] at hhex
    exact hhex.2
  simp only [mappingKeyBytes, h0x, if_true]
  exact hexCharsToBytes_pad64 (key.drop 2) hall hlen

theorem natDigitsAux_length_le (base : Nat) (hb : 2 ≤ base) :
    ∀ fuel n k, n < base ^ k → (natDigitsAux base fuel n).length ≤ k := by
  intro fuel
  induction fuel with
  | zero => intro n k _; simp [natDigitsAux]
  | succ f ih =>
    intro n k hn
    by_cases h0 : n = 0
    · simp [natDigitsAux, h0]
    · simp only [natDigitsAux, h0, if_false, List.length_cons]
      cases k with
      | zero => simp at hn; omega
      | succ m =>
        have hdiv : n / base < base ^ m := by
          rw [Nat.div_lt_iff_lt_mul (by omega)]
          calc n < base ^ (m + 1) := hn
            _ = base ^ m * base := by ring
        exact Nat.succ_le_succ (ih (n / base) m hdiv)

theorem hexToStr_length_le (n : Nat) (h : n < 2 ^ 256) : (hexToStr n).length ≤ 64 := by
  by_cases h0 : n = 0
  · simp [hexToStr, h0]
  · simp only [hexToStr, h0, if_false, List.length_map, List.length_reverse]
    exact natDigitsAux_length_le 16 (by omega) n n 64 (lt_of_lt_of_le h (by norm_num))

theorem hexToStr_all_hex (n : Nat) : ∀ c ∈ hexToStr n, isHexDigitCode c = true := by
  intro c hc
  by_cases h0 : n = 0
  · simp [hexToStr, h0] at hc
    subst hc; decide
  · simp only [hexToStr, h0, if_false, List.mem_map, List.mem_reverse] at hc
    obtain ⟨d, hd, rfl⟩ := hc
    have hdlt := natDigitsAux_lt 16 (by omega) n n d hd
    by_cases hd10 : d < 10
    · simp only [if_pos hd10, isHexDigitCode]
      simp; omega
    · simp only [if_neg hd10, isHexDigitCode]
      simp; omega

theorem mappingKeyBytes_digits (key : JSString) (h : isDigits key = true)
    (hlt : decVal key < 2 ^ 256) :
    mappingKeyBytes key = some (natToBytes32 (decVal key)) := by
  simp [mappingKeyBytes, hasHex0x_of_isDigits key h, h,
    hexCharsToBytes_pad64 (hexToStr (decVal key)) (hexToStr_all_hex _)
      (hexToStr_length_le _ hlt), hexVal_hexToStr]

theorem calculateMappingSlotFast_digitKey (slot key : JSString) (hk : isDigits key = true)
    (hlt256 : decVal key < 2 ^ 256) :
    calculateMappingSlotFast slot key =
      Except.ok (keccakHexStr (natToBytes32 (decVal key) ++ natToBytes32 (decVal slot))) := by
  unfold calculateMappingSlotFast
  by_cases hlt : decVal key < 1000
  · simp [hk, hlt]
  · simp [hk, hlt, mappingKeyBytes_digits key hk hlt256]

theorem calculateMappingSlotFast_strKey (slot key : JSString)
    (h0x : hasHex0x key = false) (hk : isDigits key = false) :
    calculateMappingSlotFast slot key =
      Except.ok (keccakHexStr (Keccak.keccak256Bytes key ++ natToBytes32 (decVal slot))) := by
  unfold calculateMappingSlotFast
  simp [hk, mappingKeyBytes, h0x]

theorem calculateMappingSlotFast_hexKey (slot key : JSString) (h0x : hasHex0x key = true)
    (hhex : isHexDigits (key.drop 2) = true) (hlen : (key.drop 2).length ≤ 64) :
    calculateMappingSlotFast slot key =
      Except.ok (keccakHexStr (natToBytes32 (hexVal (key.drop 2)) ++ natToBytes32 (decVal slot))) := by
  unfold calculateMappingSlotFast
  have hk : isDigits key = false := by
    match key, h0x with
    | a :: b :: t, h0x =>
      simp only [hasHex0x, Bool.and_eq_true, beq_iff_eq] at h0x
      have hb : isDigitCode b = false := by
        rw [h0x.2]; decide
      simp [isDigits, hb]
  simp [hk, mappingKeyBytes_hexKey key h0x hhex hlen]

theorem calculateMappingSlot_digitSlot (slot key : JSString) (hs : isDigits slot = true)
    (hlt : decVal slot < 1000) :
    calculateMappingSlot slot key = calculateMappingSlotFast slot key := by
  simp [calculateMappingSlot, hs, hlt]

theorem resolveMappingPath_single (v : VarLocation) (key : JSString) :
    resolveMappingPath v [key] =
      match calculateMappingSlot v.slot (formatMappingKey (parseMappingType v.type).1 key) with
      | Except.error e => Except.error e
      | Except.ok mappingSlot =>
        Except.ok { slot := mappingSlot, offset := none,
                    size := getSizeForType (parseMappingType v.type).2,
                    type := (parseMappingType v.type).2, children := none } := by
  show resolveMappingPathAux 2 v [key] = _
  unfold resolveMappingPathAux
  cases h : calculateMappingSlot v.slot (formatMappingKey (parseMappingType v.type).1 key) with
  | error e => simp [h]
  | ok s => simp [h]

theorem parseMappingType_uintUint :
    parseMappingType (jstr "t_mapping(t_uint256,t_uint256)") =
      (jstr "t_uint256", jstr "t_uint256") := by decide

theorem parseMappingType_strUint :
    parseMappingType (jstr "t_mapping(t_string,t_uint256)") =
      (jstr "t_string", jstr "t_uint256") := by decide

theorem parseMappingType_addrUint :
    parseMappingType (jstr "t_mapping(t_address,t_uint256)") =
      (jstr "t_address", jstr "t_uint256") := by decide

theorem formatMappingKey_uint256 (key : JSString) :
    formatMappingKey (jstr "t_uint256") key =
      (match jsBigIntOfStr key with
       | some n => decToStr n
       | none => key) := by
  have h1 : includesSub (jstr "t_uint256") (jstr "t_address") = false := by decide
  have h2 : includesSub (jstr "t_uint256") (jstr "t_uint") = true := by decide
  simp [formatMappingKey, h1, h2]

theorem formatMappingKey_string (key : JSString) :
    formatMappingKey (jstr "t_string") key = key := by
  have h1 : includesSub (jstr "t_string") (jstr "t_address") = false := by decide
  have h2 : includesSub (jstr "t_string") (jstr "t_uint") = false := by decide
  have h3 : includesSub (jstr "t_string") (jstr "t_int") = false := by decide
  simp [formatMappingKey, h1, h2, h3]

theorem formatMappingKey_address (key : JSString) :
    formatMappingKey (jstr "t_address") key =
      (if hasHex0x key then key else 48 :: 120 :: key) := by
  have h1 : includesSub (jstr "t_address") (jstr "t_address") = true := by decide
  simp [formatMappingKey, h1]

set_option maxRecDepth 40000

/-!
## Claim theorems
-/

/-- C1 (code bug in the source): the claim — and the Solidity storage rules
the plugin is meant to reproduce — require resolving `["age"]` on a struct
variable at slot 5 whose `age` member has `relativeSlot = 1, offset = 0` to
give slot 6 = baseSlot + relativeSlot.  The code's `findVariableLocation`
computes the child slot as `calculateMemberSlot(baseSlot, member.offset) =
baseSlot + floor(byteOffset / 32)`, ignoring the member's `slot` field
entirely, so `person.age` resolves to the struct's own slot 5.  (The test
suite itself demonstrates `age` lives at slot 6 and only asserts a direct
slot-6 write; `calculateRelativeSlot`, used for structs under mappings,
does consult `member.slot`.) -/
theorem c1_struct_member_slot_code_bug :
    getStorageLocation personLayout (jstr "person") [jstr "age"] =
      Except.ok { slot := jstr "5", offset := some 0, size := 32,
                  type := jstr "t_uint256", children := none } ∧
    formatSlot (jstr "5") = 5 ∧
    calculateMemberSlot (jstr "5") 0 = Except.ok (hexToStr 5) ∧
    (5 : Nat) ≠ 5 + 1 :=
  ⟨rfl, by decide, rfl, by decide⟩

/-- C3 counterexample: a resolved cell with `offset = 0` and `width = 1`
(so `width ≠ 32`) gets a single whole-slot `set` with no backend `get`,
although the claim mandates a read-merge-write whenever `width ≠ 32`.  The
code's guard is `offset !== undefined && offset > 0` only. -/
theorem c3_counterexample :
    setSlotValue (fun _ => 0)
        { slot := jstr "2", offset := some 0, size := 1, type := jstr "t_bool",
          children := none } (JSValue.jsBool true) =
      Except.ok [BackendCall.set 2 1] ∧
    hasGet [BackendCall.set 2 1] = false ∧ (1 : Nat) ≠ 32 :=
  ⟨rfl, rfl, by decide⟩

/-- C3 amended: `setSlotValue` performs the read-merge-write (one backend
`get`, then one `set` of the `mergePartialWord` result) exactly when the
resolved cell's offset is present and positive; in every other case —
including packed cells at offset 0 of any width — it issues a single
whole-slot `set` of the encoded word and no `get`. -/
theorem c3_amended (storage : Nat → Nat) (location : StorageLocation) (value : JSValue)
    (w : Nat) (henc : encodeValueForStorage value location = Except.ok w) :
    ∃ calls, setSlotValue storage location value = Except.ok calls ∧
      (hasGet calls = true ↔ ∃ o, location.offset = some o ∧ 0 < o) ∧
      (∀ o, location.offset = some o → 0 < o →
        calls = [BackendCall.get (formatSlot location.slot),
                 BackendCall.set (formatSlot location.slot)
                   (mergePartialWord (storage (formatSlot location.slot)) w o
                     location.size)]) ∧
      ((location.offset = none ∨ location.offset = some 0) →
        calls = [BackendCall.set (formatSlot location.slot) w]) := by
  cases ho : location.offset with
  | none =>
    refine ⟨[BackendCall.set (formatSlot location.slot) w], ?_, ?_, ?_, ?_⟩
    · simp [setSlotValue, henc, ho]
    · simp [hasGet, ho]
    · intro o hoo
      exact absurd hoo (by simp)
    · intro
      rfl
  | some o =>
    by_cases hpos : 0 < o
    · refine ⟨[BackendCall.get (formatSlot location.slot),
               BackendCall.set (formatSlot location.slot)
                 (mergePartialWord (storage (formatSlot location.slot)) w o
                   location.size)], ?_, ?_, ?_, ?_⟩
      · simp only [setSlotValue, henc, ho]
        rw [if_pos hpos]
        rfl
      · simp only [hasGet, List.any_cons, List.any_nil]
        constructor
        · intro
          exact ⟨o, rfl, hpos⟩
        · intro
          rfl
      · intro o' hoo hpos'
        injection hoo with h
        subst h
        rfl
      · intro hcon
        rcases hcon with h | h
        · exact absurd h (by simp)
        · injection h with h
          omega
    · have ho0 : o = 0 := by omega
      subst ho0
      refine ⟨[BackendCall.set (formatSlot location.slot) w], ?_, ?_, ?_, ?_⟩
      · simp [setSlotValue, henc, ho]
      · simp [hasGet, ho]
      · intro o' hoo hpos'
        injection hoo with h
        omega
      · intro
        rfl
  
/-- C3 witness: a packed cell at offset 1 goes through the read-merge-write
path, issuing a backend get. -/
theorem c3_amended_witness :
    ∃ calls, setSlotValue (fun _ => 255)
        { slot := jstr "2", offset := some 1, size := 1, type := jstr "t_bool",
          children := none } (JSValue.jsBool true) = Except.ok calls ∧
      hasGet calls = true := by
  obtain ⟨calls, h1, h2, -, -⟩ :=
    c3_amended (fun _ => 255)
      { slot := jstr "2", offset := some 1, size := 1, type := jstr "t_bool",
        children := none } (JSValue.jsBool true) 1 (by decide)
  exact ⟨calls, h1, h2.mpr ⟨1, rfl, by omega⟩⟩

/-- C4 counterexample: 256 does not fit in the 8 bits of a `uint8` cell,
yet `encode` produces the word 256 — there is no `Overflow` error anywhere
in the encoders. -/
theorem c4_counterexample :
    encodeValueForStorage (JSValue.num 256)
        { slot := jstr "0", offset := some 0, size := 1, type := jstr "t_uint8",
          children := none } = Except.ok 256 ∧
    2 ^ (1 * 8) ≤ 256 := by
  constructor
  · rfl
  · decide

/-- C4 amended: the encoders perform no range check against the declared
width: an unsigned value encodes to the value itself whatever the width;
a negative signed value is truncated to `width*8`-bit two's complement; a
non-negative signed value is passed through unchecked.  No `Overflow`
failure exists. -/
theorem c4_amended (slot : JSString) (size : Nat) (v : Nat) (w : Int) :
    encodeValueForStorage (JSValue.num (Int.ofNat v))
        { slot := slot, offset := none, size := size, type := jstr "t_uint256",
          children := none } = Except.ok v ∧
    (w < 0 →
      encodeValueForStorage (JSValue.num w)
          { slot := slot, offset := none, size := size, type := jstr "t_int256",
            children := none } =
        Except.ok ((w % ((2 : Int) ^ (size * 8))).toNat)) ∧
    (0 ≤ w →
      encodeValueForStorage (JSValue.num w)
          { slot := slot, offset := none, size := size, type := jstr "t_int256",
            children := none } = Except.ok w.toNat) := by
  have hpre1 : (jstr "t_uint").isPrefixOf (jstr "t_uint256") = true := by decide
  have hpre2 : (jstr "t_uint").isPrefixOf (jstr "t_int256") = false := by decide
  have hpre3 : (jstr "t_int").isPrefixOf (jstr "t_int256") = true := by decide
  refine ⟨?_, ?_, ?_⟩
  · simp [encodeValueForStorage, hpre1, encodeUintForStorage, jsBigIntOf]
  · intro hneg
    simp [encodeValueForStorage, hpre2, hpre3, encodeIntForStorage, jsBigIntOf, hneg]
  · intro hpos
    have hnn : ¬ (w < 0) := by omega
    simp [encodeValueForStorage, hpre2, hpre3, encodeIntForStorage, jsBigIntOf, hnn]

/-- C4 witness: 300 encodes unchecked into a `uint` cell of width 1, and
-1 encodes as the 8-bit two's complement 255 in an `int` cell of width 1. -/
theorem c4_amended_witness :
    encodeValueForStorage (JSValue.num (Int.ofNat 300))
        { slot := jstr "0", offset := none, size := 1, type := jstr "t_uint256",
          children := none } = Except.ok 300 ∧
    encodeValueForStorage (JSValue.num (-1))
        { slot := jstr "0", offset := none, size := 1, type := jstr "t_int256",
          children := none } = Except.ok 255 := by
  obtain ⟨h1, h2, -⟩ := c4_amended (jstr "0") 1 300 (-1)
  refine ⟨h1, ?_⟩
  rw [h2 (by norm_num)]
  congr 1

/-- C6: a string value of at most 31 character codes encodes in place: the
raw bytes left-aligned, zero-padded to 31 bytes, with the final low byte
`2 * length` (so the word modulo 256 is twice the length); any longer
value fails with the long-string (`Unsupported`) error. -/
theorem c6_short_string_encoding (s : JSString) :
    (s.length ≤ 31 →
      encodeStringForStorage (JSValue.str s) =
        Except.ok (bytesToNatBE (s ++ List.replicate (31 - s.length) 0 ++ [2 * s.length])) ∧
      bytesToNatBE (s ++ List.replicate (31 - s.length) 0 ++ [2 * s.length]) % 256 =
        2 * s.length) ∧
    (31 < s.length →
      encodeStringForStorage (JSValue.str s) =
        Except.error "Long strings not supported for direct storage setting") := by
  constructor
  · intro hlen
    constructor
    · simp [encodeStringForStorage, hlen]
    · rw [bytesToNatBE_append_singleton, Nat.mul_add_mod]
      exact Nat.mod_eq_of_lt (by omega)
  · intro hlen
    have : ¬ (s.length ≤ 31) := by omega
    simp [encodeStringForStorage, this]

/-- C6 witness: "Hello" (5 bytes) becomes 0x48656c6c6f…00 0a, and a
32-byte string fails. -/
theorem c6_short_string_encoding_witness :
    encodeStringForStorage (JSValue.str (jstr "Hello")) =
      Except.ok (bytesToNatBE (jstr "Hello" ++
        List.replicate (31 - (jstr "Hello").length) 0 ++ [2 * (jstr "Hello").length])) ∧
    bytesToNatBE (jstr "Hello" ++
        List.replicate (31 - (jstr "Hello").length) 0 ++ [2 * (jstr "Hello").length]) =
      0x48656c6c6f00000000000000000000000000000000000000000000000000000a ∧
    encodeStringForStorage (JSValue.str (List.replicate 31 97)) =
      Except.ok (bytesToNatBE (List.replicate 31 97 ++
        List.replicate (31 - (List.replicate 31 97 : List Nat).length) 0 ++
        [2 * (List.replicate 31 97 : List Nat).length])) ∧
    encodeStringForStorage (JSValue.str (List.replicate 32 97)) =
      Except.error "Long strings not supported for direct storage setting" :=
  ⟨((c6_short_string_encoding (jstr "Hello")).1 (by decide)).1,
   by decide,
   ((c6_short_string_encoding (List.replicate 31 97)).1 (by decide)).1,
   (c6_short_string_encoding (List.replicate 32 97)).2 (by decide)⟩

/-- C7: for a 32-byte current word and any encoded value, offset and width
with `offset + width ≤ 32`, the merged word agrees with the encoded value
on the `width` bytes at byte-position `offset` from the low end and is
bit-identical to the current word on every other byte.  (The proof comes
from `mergePartialWord_byte`, which needs no side conditions at all.) -/
theorem c7_merge_partial_word_frame (cur val offset width : Nat)
    (hcur : cur < 2 ^ 256) (hw : offset + width ≤ 32) :
    ∀ i, i < 32 →
      byteAt (mergePartialWord cur val offset width) i =
        if offset ≤ i ∧ i < offset + width then byteAt val (i - offset)
        else byteAt cur i :=
  fun i _ => mergePartialWord_byte cur val offset width i

/-- C7 witness: writing value 7 at offset 1, width 1 over the word 0x…00FF
changes byte 1 to 7 and leaves byte 0 (and all others) untouched. -/
theorem c7_merge_partial_word_frame_witness :
    (255 : Nat) < 2 ^ 256 ∧ 1 + 1 ≤ 32 ∧
    byteAt (mergePartialWord 255 7 1 1) 1 = byteAt 7 0 ∧
    byteAt (mergePartialWord 255 7 1 1) 0 = byteAt 255 0 ∧
    byteAt (mergePartialWord 255 7 1 1) 2 = byteAt 255 2 := by
  refine ⟨by norm_num, by norm_num, ?_, ?_, ?_⟩
  · have h := c7_merge_partial_word_frame 255 7 1 1 (by norm_num) (by norm_num) 1
      (by norm_num)
    simpa using h
  · have h := c7_merge_partial_word_frame 255 7 1 1 (by norm_num) (by norm_num) 0
      (by norm_num)
    simpa using h
  · have h := c7_merge_partial_word_frame 255 7 1 1 (by norm_num) (by norm_num) 2
      (by norm_num)
    simpa using h

/-- C8: whenever path resolution fails, or resolution succeeds but value
encoding fails, `setState` returns `false` having issued no backend call
at all — the trace is empty, so storage is untouched. -/
theorem c8_no_backend_call_on_error (layout : StorageLayoutInfo) (storage : Nat → Nat)
    (varName : JSString) (path : List JSString) (value : JSValue) :
    (∀ e, getStorageLocation layout varName path = Except.error e →
      setState layout storage varName path value = (false, [])) ∧
    (∀ location e, getStorageLocation layout varName path = Except.ok location →
      encodeValueForStorage value location = Except.error e →
      setState layout storage varName path value = (false, [])) := by
  constructor
  · intro e he
    simp [setState, he]
  · intro location e hres henc
    simp [setState, hres, setSlotValue, henc]

/-- C8 witness: an unknown variable (resolution failure) and an over-long
string (encoding failure) both leave the backend untouched. -/
theorem c8_no_backend_call_on_error_witness :
    setState emptyLayout (fun _ => 0) (jstr "x") [] (JSValue.num 1) = (false, []) ∧
    setState strLayout (fun _ => 0) (jstr "s") [] (JSValue.str (List.replicate 32 97)) =
      (false, []) :=
  ⟨(c8_no_backend_call_on_error emptyLayout (fun _ => 0) (jstr "x") [] (JSValue.num 1)).1
      "Variable not found in contract" rfl,
   (c8_no_backend_call_on_error strLayout (fun _ => 0) (jstr "s") []
      (JSValue.str (List.replicate 32 97))).2
      { slot := jstr "1", offset := some 0, size := 32, type := jstr "t_string_storage",
        children := none }
      "Long strings not supported for direct storage setting" rfl (by decide)⟩

/-- C9 (code bug in the source): the claim — matching the solc layout
format, where slots are decimal strings — requires the element slot of a
fixed array at base slot b to be `b + i (mod 2^256)`.  `calculateArraySlot`
prepends `0x` to the slot string, reading the decimal string "10" as
hexadecimal 16, so element 0 of an array declared at slot 10 resolves to
slot 16.  (`calculateDynamicArraySlot` parses the same strings as decimal,
and the README converts slot 12 to "0xc" by hand before touching storage.)
The absence of any bounds check — index 1000 on a 5-element array yields a
well-defined slot — does hold, and no modular reduction is applied
anywhere. -/
theorem c9_fixed_array_slot_code_bug :
    calculateArraySlot (jstr "10") 0 = Except.ok (hex0xStr 16) ∧
    hexVal ((hex0xStr 16).drop 2) = 16 ∧
    (16 : Nat) ≠ (10 + 0) % 2 ^ 256 ∧
    calculateArraySlot (jstr "4") 1000 = Except.ok (hex0xStr 1004) ∧
    (resolveArrayPath (fixedArrayLoc (jstr "10")) [jstr "0"]).map
        (fun l => hexVal (l.slot.drop 2)) = Except.ok 16 := by
  refine ⟨rfl, by decide, by decide, rfl, rfl⟩

/-- C2 counterexample: for a mapping with declared key type `t_string` at
slot 0 and the key "ab", the resolved slot is
`keccak256(keccak256("ab") ++ leftPad32(0))` — the key bytes ARE hashed
first — and this differs from the claimed
`keccak256("ab" ++ leftPad32(0))` with the raw, unpadded key bytes. -/
theorem c2_counterexample :
    (resolveMappingPath (mapLoc (jstr "0") (jstr "t_mapping(t_string,t_uint256)"))
        [jstr "ab"]).map (fun l => hexVal (l.slot.drop 2)) =
      Except.ok (Keccak.keccak256Nat
        (Keccak.keccak256Bytes (jstr "ab") ++ natToBytes32 0)) ∧
    Keccak.keccak256Nat (Keccak.keccak256Bytes (jstr "ab") ++ natToBytes32 0) ≠
      Keccak.keccak256Nat (jstr "ab" ++ natToBytes32 0) := by
  constructor
  · rw [resolveMappingPath_single]
    have hty : (mapLoc (jstr "0") (jstr "t_mapping(t_string,t_uint256)")).type =
        jstr "t_mapping(t_string,t_uint256)" := rfl
    have hsl : (mapLoc (jstr "0") (jstr "t_mapping(t_string,t_uint256)")).slot =
        jstr "0" := rfl
    rw [hty, hsl, parseMappingType_strUint]
    rw [show ((jstr "t_string", jstr "t_uint256")).1 = jstr "t_string" from rfl]
    rw [formatMappingKey_string]
    rw [calculateMappingSlot_digitSlot _ _ (by decide) (by decide)]
    rw [calculateMappingSlotFast_strKey _ _ (by decide) (by decide)]
    rw [show decVal (jstr "0") = 0 from by decide]
    simp [Except.map, hexVal_keccakHexStr]
  · decide

/-- C2 amended: `calculateMappingSlot` picks its hashing mode from the
RUNTIME shape of the (formatted) key string, not from the declared key
type.  For a mapping at a decimal slot below 1000: a decimal key — under a
numeric declared key type (a), or even under a `string` declared key type
(d) — and a `0x`-hex key under an `address` declared key type (b) hash as
`keccak256(leftPad32(key) ++ leftPad32(slot))`, as the claim states; but a
key of any other shape (every genuine string key, c) is FIRST hashed with
`keccak256`, and the slot is `keccak256(keccak256(key) ++ leftPad32(slot))`
— never the raw unpadded key bytes.  The decimal-key conjuncts (a) and (d)
need the key value below 2^256 — the analogue of the hex conjunct's length
bound — because `toString(16).padStart(64)` does not reduce: a larger key
renders as more than 64 hex characters, which either throws (odd count) or
hashes more than 32 key bytes. -/
theorem c2_amended (slot key : JSString) (hs : isDigits slot = true)
    (hlt : decVal slot < 1000) :
    (isDigits key = true → decVal key < 2 ^ 256 →
      (resolveMappingPath (mapLoc slot (jstr "t_mapping(t_uint256,t_uint256)"))
          [key]).map (fun l => hexVal (l.slot.drop 2)) =
        Except.ok (Keccak.keccak256Nat
          (natToBytes32 (decVal key) ++ natToBytes32 (decVal slot)))) ∧
    (hasHex0x key = true → isHexDigits (key.drop 2) = true →
      (key.drop 2).length ≤ 64 →
      (resolveMappingPath (mapLoc slot (jstr "t_mapping(t_address,t_uint256)"))
          [key]).map (fun l => hexVal (l.slot.drop 2)) =
        Except.ok (Keccak.keccak256Nat
          (natToBytes32 (hexVal (key.drop 2)) ++ natToBytes32 (decVal slot)))) ∧
    (hasHex0x key = false → isDigits key = false →
      (resolveMappingPath (mapLoc slot (jstr "t_mapping(t_string,t_uint256)"))
          [key]).map (fun l => hexVal (l.slot.drop 2)) =
        Except.ok (Keccak.keccak256Nat
          (Keccak.keccak256Bytes key ++ natToBytes32 (decVal slot)))) ∧
    (isDigits key = true → decVal key < 2 ^ 256 →
      (resolveMappingPath (mapLoc slot (jstr "t_mapping(t_string,t_uint256)"))
          [key]).map (fun l => hexVal (l.slot.drop 2)) =
        Except.ok (Keccak.keccak256Nat
          (natToBytes32 (decVal key) ++ natToBytes32 (decVal slot)))) := by
  refine ⟨?_, ?_, ?_, ?_⟩
  · intro hk hb
    rw [resolveMappingPath_single]
    rw [show (mapLoc slot (jstr "t_mapping(t_uint256,t_uint256)")).type =
        jstr "t_mapping(t_uint256,t_uint256)" from rfl]
    rw [show (mapLoc slot (jstr "t_mapping(t_uint256,t_uint256)")).slot = slot from rfl]
    rw [parseMappingType_uintUint]
    rw [show ((jstr "t_uint256", jstr "t_uint256")).1 = jstr "t_uint256" from rfl]
    rw [formatMappingKey_uint256, jsBigIntOfStr_digits key hk]
    rw [calculateMappingSlot_digitSlot _ _ hs hlt]
    rw [calculateMappingSlotFast_digitKey _ _ (isDigits_decToStr _)
      (by rw [decVal_decToStr]; exact hb), decVal_decToStr]
    simp [Except.map, hexVal_keccakHexStr]
  · intro h0x hhex hlen
    rw [resolveMappingPath_single]
    rw [show (mapLoc slot (jstr "t_mapping(t_address,t_uint256)")).type =
        jstr "t_mapping(t_address,t_uint256)" from rfl]
    rw [show (mapLoc slot (jstr "t_mapping(t_address,t_uint256)")).slot = slot from rfl]
    rw [parseMappingType_addrUint]
    rw [show ((jstr "t_address", jstr "t_uint256")).1 = jstr "t_address" from rfl]
    rw [formatMappingKey_address, if_pos h0x]
    rw [calculateMappingSlot_digitSlot _ _ hs hlt]
    rw [calculateMappingSlotFast_hexKey _ _ h0x hhex hlen]
    simp [Except.map, hexVal_keccakHexStr]
  · intro h0x hk
    rw [resolveMappingPath_single]
    rw [show (mapLoc slot (jstr "t_mapping(t_string,t_uint256)")).type =
        jstr "t_mapping(t_string,t_uint256)" from rfl]
    rw [show (mapLoc slot (jstr "t_mapping(t_string,t_uint256)")).slot = slot from rfl]
    rw [parseMappingType_strUint]
    rw [show ((jstr "t_string", jstr "t_uint256")).1 = jstr "t_string" from rfl]
    rw [formatMappingKey_string]
    rw [calculateMappingSlot_digitSlot _ _ hs hlt]
    rw [calculateMappingSlotFast_strKey _ _ h0x hk]
    simp [Except.map, hexVal_keccakHexStr]
  · intro hk hb
    rw [resolveMappingPath_single]
    rw [show (mapLoc slot (jstr "t_mapping(t_string,t_uint256)")).type =
        jstr "t_mapping(t_string,t_uint256)" from rfl]
    rw [show (mapLoc slot (jstr "t_mapping(t_string,t_uint256)")).slot = slot from rfl]
    rw [parseMappingType_strUint]
    rw [show ((jstr "t_string", jstr "t_uint256")).1 = jstr "t_string" from rfl]
    rw [formatMappingKey_string]
    rw [calculateMappingSlot_digitSlot _ _ hs hlt]
    rw [calculateMappingSlotFast_digitKey _ _ hk hb]
    simp [Except.map, hexVal_keccakHexStr]

/-- C2 witness: both hashing modes at slot 3, with a numeric key and with
a plain string key. -/
theorem c2_amended_witness :
    (resolveMappingPath (mapLoc (jstr "3") (jstr "t_mapping(t_uint256,t_uint256)"))
        [jstr "7"]).map (fun l => hexVal (l.slot.drop 2)) =
      Except.ok (Keccak.keccak256Nat
        (natToBytes32 (decVal (jstr "7")) ++ natToBytes32 (decVal (jstr "3")))) ∧
    (resolveMappingPath (mapLoc (jstr "3") (jstr "t_mapping(t_string,t_uint256)"))
        [jstr "ok"]).map (fun l => hexVal (l.slot.drop 2)) =
      Except.ok (Keccak.keccak256Nat
        (Keccak.keccak256Bytes (jstr "ok") ++ natToBytes32 (decVal (jstr "3")))) :=
  ⟨(c2_amended (jstr "3") (jstr "7") (by decide) (by decide)).1 (by decide) (by decide),
   (c2_amended (jstr "3") (jstr "ok") (by decide) (by decide)).2.2.1 (by decide)
     (by decide)⟩

/-- C10 counterexample: on the decimal slot string "10" (value ten, below
1000) with key "1", the fast path hashes `pad32(1) ++ pad32(10)` while the
general path — reading "10" as hexadecimal — would hash
`pad32(1) ++ pad32(16)`; the two branches produce different slots, so they
are not equivalent. -/
theorem c10_counterexample :
    isDigits (jstr "10") = true ∧ decVal (jstr "10") < 1000 ∧
    calculateMappingSlotFast (jstr "10") (jstr "1") =
      Except.ok (keccakHexStr (natToBytes32 1 ++ natToBytes32 10)) ∧
    calculateMappingSlotGeneral (jstr "10") (jstr "1") =
      Except.ok (keccakHexStr (natToBytes32 1 ++ natToBytes32 16)) ∧
    calculateMappingSlotFast (jstr "10") (jstr "1") ≠
      calculateMappingSlotGeneral (jstr "10") (jstr "1") := by
  refine ⟨by decide, by decide, ?_, ?_, by decide⟩
  · rw [calculateMappingSlotFast_digitKey _ _ (by decide) (by decide)]
    rw [show decVal (jstr "1") = 1 from by decide,
      show decVal (jstr "10") = 10 from by decide]
  · unfold calculateMappingSlotGeneral
    simp only [show hasHex0x (jstr "10") = false from by decide, Bool.false_eq_true,
      if_false, show isHexDigits (jstr "10") = true from by decide, if_true,
      mappingKeyBytes_digits _ (show isDigits (jstr "1") = true from by decide)
        (show decVal (jstr "1") < 2 ^ 256 from by decide)]
    rw [show decVal (jstr "1") = 1 from by decide,
      show hexVal (jstr "10") = 16 from by decide]

/-- C10 amended: the fast path and the general path agree exactly when the
hexadecimal reading of the slot string coincides with its decimal value —
single-digit slots "0"…"9" in particular; on any other decimal slot below
1000 (such as "10") the two branches hash different base slots, so the
special-casing is NOT equivalence-preserving in general. -/
theorem c10_amended (slot key : JSString) (hs : isDigits slot = true)
    (hlt : decVal slot < 1000) (hhex : hexVal slot = decVal slot) :
    calculateMappingSlotFast slot key = calculateMappingSlotGeneral slot key ∧
    calculateMappingSlot slot key = calculateMappingSlotFast slot key := by
  have h0x : hasHex0x slot = false := hasHex0x_of_isDigits slot hs
  have hhd : isHexDigits slot = true := isHexDigits_of_isDigits slot hs
  constructor
  · unfold calculateMappingSlotFast calculateMappingSlotGeneral
    rw [h0x]
    simp only [Bool.false_eq_true, if_false, hhd, if_true, hhex]
    by_cases hk : isDigits key = true ∧ decVal key < 1000
    · rw [if_pos hk, mappingKeyBytes_digits key hk.1 (Nat.lt_trans hk.2 (by norm_num))]
    · rw [if_neg hk]
  · exact calculateMappingSlot_digitSlot slot key hs hlt

/-- C10 witness: on the single-digit slot "7" the two branches agree for a
representative key. -/
theorem c10_amended_witness :
    calculateMappingSlotFast (jstr "7") (jstr "123") =
      calculateMappingSlotGeneral (jstr "7") (jstr "123") ∧
    calculateMappingSlot (jstr "7") (jstr "123") =
      calculateMappingSlotFast (jstr "7") (jstr "123") :=
  c10_amended (jstr "7") (jstr "123") (by decide) (by decide) (by decide)
